import Mathlib

/-!
Validator request service: a shallow embedding.

Embedding of `internal/models/validator.go`, `internal/service/validator.go`
with the store interface `RequestRepo` the service talks to,
`internal/repository/validator.go` as a model of its SQLite tables, and the
handlers of `internal/api/handlers/validator.go`.

Conventions.
* Go strings are Lean strings; Go `int` is `Int`; bytes are `Nat` taken `% 256`.
* A Go `error` is an `Error` value; a returned `error` is `Option Error`
  (`none` is Go's `nil`).  A Go pair `(*T, error)` returned by the service is a
  pair `Option T × Option Error`.
* The store is a state machine over an abstract state `σ`: every interface
  method consumes the current state and returns its result with the next state.
* Everything the service does to the outside is appended to `World.events`:
  store calls with their outcome, key generation outcomes, launched goroutines,
  metric updates and log lines.
* `uuid.New`, `rand.Read` and `time.Now` are oracles of the environment `Env`;
  the world counts how many values of each were drawn.
-/

namespace Stakeway

/-! ## models -/

/-- Go `error`: an error value, identified by its text. -/
structure Error where
  msg : String
deriving DecidableEq, Repr

/-- Go `type Status string`. -/
abbrev Status := String

def StatusStarted : Status := "started"
def StatusSuccessful : Status := "successful"
def StatusFailed : Status := "failed"

/-- Go `models.ValidatorRequest`; instants of `time.Time` are integers. -/
structure ValidatorRequest where
  ID : String
  NumValidators : Int
  FeeRecipient : String
  Status : Stakeway.Status
  CreatedAt : Int
  UpdatedAt : Int
  ErrorMessage : String
deriving DecidableEq, Repr

/-- Go `models.ValidatorKey`. -/
structure ValidatorKey where
  ID : String
  RequestID : String
  Key : String
  FeeRecipient : String
deriving DecidableEq, Repr

/-- Go `models.ValidatorRequestInput`. -/
structure ValidatorRequestInput where
  NumValidators : Int
  FeeRecipient : String
deriving DecidableEq, Repr

/-- Go `models.ValidatorRequestResponse`. -/
structure ValidatorRequestResponse where
  RequestID : String
  Message : String
deriving DecidableEq, Repr

/-- Go `models.ValidatorStatusResponse`; a nil slice of keys is the empty list. -/
structure ValidatorStatusResponse where
  Status : Stakeway.Status
  Keys : List String
  Message : String
deriving DecidableEq, Repr

/-! ## The store interface and the observable world -/

/-- Go interface `RequestRepo`, as a state machine over the store state `σ`.
A `(value, error)` result is `Except`: the repository returns either the value
or the error, never both and never neither. -/
structure RequestRepo (σ : Type) where
  CreateRequest : σ → ValidatorRequest → Option Error × σ
  GetRequestByID : σ → String → Except Error ValidatorRequest × σ
  GetKeysByRequestID : σ → String → Except Error (List String) × σ
  UpdateRequestStatus : σ → String → Status → String → Option Error × σ
  SaveValidatorKey : σ → ValidatorKey → Option Error × σ

/-- One invocation of a `RequestRepo` method, with its arguments. -/
inductive Call where
  | CreateRequest (request : ValidatorRequest)
  | GetRequestByID (id : String)
  | GetKeysByRequestID (requestID : String)
  | UpdateRequestStatus (id : String) (status : Status) (errorMessage : String)
  | SaveValidatorKey (key : ValidatorKey)
deriving DecidableEq, Repr

/-- Everything the service does that is visible outside of it. -/
inductive Event where
  /-- A store call and the error it returned (`none` when it succeeded). -/
  | call (c : Call) (err : Option Error)
  /-- One `generateRandomKey()` with its `(string, error)` result. -/
  | keygen (key : String) (err : Option Error)
  /-- The statement `go s.processValidatorCreation(requestID, n, feeRecipient)`. -/
  | spawn (requestID : String) (numValidators : Int) (feeRecipient : String)
  /-- The call `utils.TasksTotal.WithLabelValues(label).Inc()`. -/
  | tasksTotalInc (label : String)
  /-- The call `utils.TaskDuration.Observe(d)`, `d` the elapsed time. -/
  | taskDurationObserve (elapsed : Int)
  /-- A line written through `s.logger` (level and message). -/
  | log (level : String) (message : String)
deriving DecidableEq, Repr

/-- Oracles for the sources of nondeterminism used by the service. -/
structure Env where
  /-- The 16 random bytes drawn by the `k`-th `uuid.New()`. -/
  uuidBytes : Nat → Fin 16 → Nat
  /-- Outcome of the `k`-th `rand.Read` on a 32-byte buffer. -/
  randRead : Nat → Except Error (Fin 32 → Nat)
  /-- The instant returned by the `k`-th `time.Now()`. -/
  now : Nat → Int

/-- State of the world the service runs in. -/
structure World (σ : Type) where
  store : σ
  events : List Event
  uuidCtr : Nat
  randCtr : Nat
  clock : Nat

/-- Go `services.ValidatorService` (the logger writes to `World.events`). -/
structure ValidatorService (σ : Type) where
  repo : RequestRepo σ

variable {σ : Type}

def emit (e : Event) (w : World σ) : World σ :=
  { w with events := w.events ++ [e] }

/-- Go `time.Now()`. -/
def timeNow (env : Env) (w : World σ) : Int × World σ :=
  (env.now w.clock, { w with clock := w.clock + 1 })

/-- The events of `w2` that were appended after `w1`. -/
def newEvents (w1 w2 : World σ) : List Event :=
  w2.events.drop w1.events.length

/-- The store calls among a list of events, in order. -/
def storeCalls (es : List Event) : List Call :=
  es.filterMap fun e =>
    match e with
    | Event.call c _ => some c
    | _ => none

/-- The processing units launched among a list of events. -/
def spawns (es : List Event) : List (String × Int × String) :=
  es.filterMap fun e =>
    match e with
    | Event.spawn r n f => some (r, n, f)
    | _ => none

/-! ### Store calls, each recorded in the event log -/

def ValidatorService.CreateRequest (s : ValidatorService σ) (request : ValidatorRequest)
    (w : World σ) : Option Error × World σ :=
  let r := s.repo.CreateRequest w.store request
  (r.1, emit (Event.call (Call.CreateRequest request) r.1) { w with store := r.2 })

/-- The `error` half of a Go `(value, error)` result. -/
def errOf {α : Type} : Except Error α → Option Error
  | Except.error e => some e
  | Except.ok _ => none

def ValidatorService.GetRequestByID (s : ValidatorService σ) (id : String)
    (w : World σ) : Except Error ValidatorRequest × World σ :=
  let r := s.repo.GetRequestByID w.store id
  (r.1, emit (Event.call (Call.GetRequestByID id) (errOf r.1)) { w with store := r.2 })

def ValidatorService.GetKeysByRequestID (s : ValidatorService σ) (requestID : String)
    (w : World σ) : Except Error (List String) × World σ :=
  let r := s.repo.GetKeysByRequestID w.store requestID
  (r.1, emit (Event.call (Call.GetKeysByRequestID requestID) (errOf r.1)) { w with store := r.2 })

def ValidatorService.UpdateRequestStatus (s : ValidatorService σ) (id : String)
    (status : Status) (errorMessage : String) (w : World σ) : Option Error × World σ :=
  let r := s.repo.UpdateRequestStatus w.store id status errorMessage
  (r.1, emit (Event.call (Call.UpdateRequestStatus id status errorMessage) r.1)
    { w with store := r.2 })

def ValidatorService.SaveValidatorKey (s : ValidatorService σ) (key : ValidatorKey)
    (w : World σ) : Option Error × World σ :=
  let r := s.repo.SaveValidatorKey w.store key
  (r.1, emit (Event.call (Call.SaveValidatorKey key) r.1) { w with store := r.2 })

/-! ## Library functions the service calls -/

/-- Go `encoding/hex`: the digit table. -/
def hextable : List Char := "0123456789abcdef".toList

/-- The two hex digits of one byte: `hextable[b >> 4]`, `hextable[b & 0x0f]`. -/
def hexByte (b : Nat) : List Char :=
  [hextable.getD ((b % 256) / 16) '0', hextable.getD ((b % 256) % 16) '0']

/-- Go `hex.EncodeToString`. -/
def hexEncode (bytes : List Nat) : List Char :=
  (bytes.map hexByte).foldr (fun d acc => d ++ acc) []

/-- Go `uuid.New()` of github.com/google/uuid: 16 random bytes with the version
nibble set to 4 (`(b[6] & 0x0f) | 0x40`) and the variant bits set to 10
(`(b[8] & 0x3f) | 0x80`). -/
def uuidOfRandom (raw : Fin 16 → Nat) : List Nat :=
  (List.ofFn raw).enum.map fun p =>
    if p.1 = 6 then (p.2 % 256) % 16 + 64
    else if p.1 = 8 then (p.2 % 256) % 64 + 128
    else p.2 % 256

/-- Go `UUID.String()`: the form `xxxxxxxx-xxxx-xxxx-xxxx-xxxxxxxxxxxx`. -/
def uuidString (u : List Nat) : String :=
  String.mk (hexEncode (u.take 4) ++ '-' :: hexEncode ((u.drop 4).take 2)
    ++ '-' :: hexEncode ((u.drop 6).take 2) ++ '-' :: hexEncode ((u.drop 8).take 2)
    ++ '-' :: hexEncode (u.drop 10))

/-- Go `uuid.New().String()`. -/
def uuidNewString (env : Env) (w : World σ) : String × World σ :=
  (uuidString (uuidOfRandom (env.uuidBytes w.uuidCtr)), { w with uuidCtr := w.uuidCtr + 1 })

/-- The fragment of Go `regexp` syntax used by the service. -/
inductive Regexp where
  /-- The assertion `^`: at the beginning of the text. -/
  | beginText
  /-- The assertion `$` (without the `m` flag): at the end of the text. -/
  | endText
  /-- A literal character. -/
  | lit (c : Char)
  /-- A character class given by its ranges, `[a-bc-d...]`. -/
  | charClass (ranges : List (Char × Char))
  /-- Concatenation. -/
  | seq (a b : Regexp)
  /-- Counted repetition `r{n}`. -/
  | rep (r : Regexp) (n : Nat)
deriving Repr

/-- Run a matcher `n` times in a row. -/
def matchRep (f : Nat → List Char → Option (Nat × List Char)) :
    Nat → Nat → List Char → Option (Nat × List Char)
  | 0, pos, rest => some (pos, rest)
  | n + 1, pos, rest => (f pos rest).bind fun p => matchRep f n p.1 p.2

/-- Match `re` at offset `pos` of the text, `rest` being the text from `pos` on;
the result is the offset and the text after the match.  The fragment has no
alternation and no star, so a match at a given offset is unique. -/
def Regexp.matchAt : Regexp → Nat → List Char → Option (Nat × List Char)
  | Regexp.beginText, pos, rest => if pos = 0 then some (pos, rest) else none
  | Regexp.endText, pos, rest => if rest.isEmpty then some (pos, rest) else none
  | Regexp.lit _, _, [] => none
  | Regexp.lit c, pos, x :: rest => if x = c then some (pos + 1, rest) else none
  | Regexp.charClass _, _, [] => none
  | Regexp.charClass ranges, pos, x :: rest =>
      if ranges.any (fun r => decide (r.1 ≤ x) && decide (x ≤ r.2)) then some (pos + 1, rest)
      else none
  | Regexp.seq a b, pos, rest => (a.matchAt pos rest).bind fun p => b.matchAt p.1 p.2
  | Regexp.rep r n, pos, rest => matchRep (fun p t => r.matchAt p t) n pos rest

/-- Go `(*Regexp).MatchString`: whether the text contains a match, starting at
any offset. -/
def Regexp.MatchString (re : Regexp) (s : String) : Bool :=
  (List.range (s.data.length + 1)).any fun i => (re.matchAt i (s.data.drop i)).isSome

/-- The expression `regexp.MustCompile("^0x[0-9a-fA-F]{40}$")`. -/
def addressRegexp : Regexp :=
  Regexp.seq Regexp.beginText
    (Regexp.seq (Regexp.lit '0')
      (Regexp.seq (Regexp.lit 'x')
        (Regexp.seq (Regexp.rep (Regexp.charClass [('0', '9'), ('a', 'f'), ('A', 'F')]) 40)
          Regexp.endText)))

/-! ## services -/

def isValidEthereumAddress (address : String) : Bool :=
  addressRegexp.MatchString address

/-- Go `fmt.Errorf` with a format that has no verbs. -/
def fmtErrorf (text : String) : Error := ⟨text⟩

def generateRandomKey (env : Env) (w : World σ) : (String × Option Error) × World σ :=
  let w1 : World σ := { w with randCtr := w.randCtr + 1 }
  match env.randRead w.randCtr with
  | Except.error err => (("", some err), emit (Event.keygen "" (some err)) w1)
  | Except.ok bytes =>
      let key := String.mk (hexEncode (List.ofFn bytes))
      ((key, none), emit (Event.keygen key none) w1)

def ValidatorService.CreateValidatorRequest (env : Env) (s : ValidatorService σ)
    (input : ValidatorRequestInput) (w : World σ) :
    (Option ValidatorRequestResponse × Option Error) × World σ :=
  if input.NumValidators ≤ 0 then
    ((none, some (fmtErrorf "number of validators must be positive")), w)
  else if !isValidEthereumAddress input.FeeRecipient then
    ((none, some (fmtErrorf "invalid Ethereum address format")), w)
  else
    let u := uuidNewString env w
    let requestID := u.1
    let t1 := timeNow env u.2
    let t2 := timeNow env t1.2
    let request : ValidatorRequest :=
      { ID := requestID
        NumValidators := input.NumValidators
        FeeRecipient := input.FeeRecipient
        Status := StatusStarted
        CreatedAt := t1.1
        UpdatedAt := t2.1
        ErrorMessage := "" }
    let c := s.CreateRequest request t2.2
    match c.1 with
    | some err => ((none, some err), c.2)
    | none =>
        let w1 := emit (Event.spawn requestID input.NumValidators input.FeeRecipient) c.2
        ((some { RequestID := requestID, Message := "Validator creation in progress" }, none), w1)

def ValidatorService.GetRequestStatus (s : ValidatorService σ) (requestID : String)
    (w : World σ) : (Option ValidatorStatusResponse × Option Error) × World σ :=
  let r := s.GetRequestByID requestID w
  match r.1 with
  | Except.error err => ((none, some err), r.2)
  | Except.ok request =>
      let response : ValidatorStatusResponse :=
        { Status := request.Status, Keys := [], Message := "" }
      if request.Status = StatusSuccessful then
        let k := s.GetKeysByRequestID requestID r.2
        match k.1 with
        | Except.error err => ((none, some err), k.2)
        | Except.ok keys => ((some { response with Keys := keys }, none), k.2)
      else if request.Status = StatusFailed then
        ((some { response with Message := request.ErrorMessage }, none), r.2)
      else
        ((some response, none), r.2)

/-- The body of `for i := 0; i < numValidators; i++` in `processValidatorCreation`,
with `remaining` iterations still to run.  The result is `false` when the
function returned from inside the loop and `true` when the loop ran to its end.
`time.Sleep` changes nothing that is observed here. -/
def processLoop (env : Env) (s : ValidatorService σ) (requestID feeRecipient : String) :
    Nat → World σ → Bool × World σ
  | 0, w => (true, w)
  | remaining + 1, w =>
      let g := generateRandomKey env w
      match g.1.2 with
      | some _ =>
          let w1 := emit (Event.log "ERROR" "Failed to generate key") g.2
          let u := s.UpdateRequestStatus requestID StatusFailed "Error generating validator keys" w1
          match u.1 with
          | some _ =>
              (false, emit (Event.log "ERROR" "Failed to update request status")
                (emit (Event.tasksTotalInc "failed") u.2))
          | none => (false, u.2)
      | none =>
          let id := uuidNewString env g.2
          let validatorKey : ValidatorKey :=
            { ID := id.1, RequestID := requestID, Key := g.1.1, FeeRecipient := feeRecipient }
          let sv := s.SaveValidatorKey validatorKey id.2
          match sv.1 with
          | some _ =>
              let w1 := emit (Event.log "ERROR" "Failed to save validator key") sv.2
              let u := s.UpdateRequestStatus requestID StatusFailed "Error saving validator keys" w1
              match u.1 with
              | some _ =>
                  (false, emit (Event.log "ERROR" "Failed to update request status")
                    (emit (Event.tasksTotalInc "failed") u.2))
              | none => (false, u.2)
          | none =>
              processLoop env s requestID feeRecipient remaining
                (emit (Event.log "INFO" "Generated validator key") sv.2)

def ValidatorService.processValidatorCreation (env : Env) (s : ValidatorService σ)
    (requestID : String) (numValidators : Int) (feeRecipient : String) (w : World σ) :
    World σ :=
  let w0 := emit (Event.log "INFO" "Starting validator creation process") w
  let startTime := timeNow env w0
  let w1 := emit (Event.tasksTotalInc "started") startTime.2
  let l := processLoop env s requestID feeRecipient numValidators.toNat w1
  if l.1 = false then l.2
  else
    let u := s.UpdateRequestStatus requestID StatusSuccessful "" l.2
    let w2 :=
      match u.1 with
      | some _ =>
          emit (Event.tasksTotalInc "failed")
            (emit (Event.log "ERROR" "Failed to update request status") u.2)
      | none =>
          let t := timeNow env u.2
          emit (Event.tasksTotalInc "successful")
            (emit (Event.log "INFO" "Validator creation completed successfully") t.2)
    let t := timeNow env w2
    emit (Event.taskDurationObserve (t.1 - startTime.1)) t.2

/-- A step of key production that failed: a `generateRandomKey` that returned
an error, or a `SaveValidatorKey` call that did. -/
def keyStepFailed : Event → Bool
  | Event.keygen _ (some _) => true
  | Event.call (Call.SaveValidatorKey _) (some _) => true
  | _ => false

/-! ## Words of the specification -/

/-- A character in `0-9`, `a-f` or `A-F`. -/
def IsHexChar (c : Char) : Prop :=
  ('0' ≤ c ∧ c ≤ '9') ∨ ('a' ≤ c ∧ c ≤ 'f') ∨ ('A' ≤ c ∧ c ≤ 'F')

instance (c : Char) : Decidable (IsHexChar c) := by
  unfold IsHexChar; infer_instance

/-- A well-formed address, in the words of the specification: length 42, the
lowercase prefix `0x`, and 40 further characters that are all hex digits. -/
def WellFormedAddress (a : String) : Prop :=
  a.length = 42 ∧ a.data.take 2 = ['0', 'x'] ∧ ∀ c ∈ a.data.drop 2, IsHexChar c

instance (a : String) : Decidable (WellFormedAddress a) := by
  unfold WellFormedAddress; infer_instance

/-! ## Test doubles

The mock of `RequestRepo` used by `internal/service/validator_test.go`: each
method returns a canned result.  The state counts the calls made so far, and a
canned result may depend on it. -/

/-- The canned results of a mock store. -/
structure MockReturns where
  CreateRequest : Nat → Option Error
  GetRequestByID : Nat → Except Error ValidatorRequest
  GetKeysByRequestID : Nat → Except Error (List String)
  UpdateRequestStatus : Nat → Option Error
  SaveValidatorKey : Nat → Option Error

def mockRepo (m : MockReturns) : RequestRepo Nat where
  CreateRequest := fun n _ => (m.CreateRequest n, n + 1)
  GetRequestByID := fun n _ => (m.GetRequestByID n, n + 1)
  GetKeysByRequestID := fun n _ => (m.GetKeysByRequestID n, n + 1)
  UpdateRequestStatus := fun n _ _ _ => (m.UpdateRequestStatus n, n + 1)
  SaveValidatorKey := fun n _ => (m.SaveValidatorKey n, n + 1)

/-- A mock whose reads leave the state alone (a store that is only read). -/
def readOnlyMockRepo (m : MockReturns) : RequestRepo Nat where
  CreateRequest := fun n _ => (m.CreateRequest n, n + 1)
  GetRequestByID := fun n _ => (m.GetRequestByID n, n)
  GetKeysByRequestID := fun n _ => (m.GetKeysByRequestID n, n)
  UpdateRequestStatus := fun n _ _ _ => (m.UpdateRequestStatus n, n + 1)
  SaveValidatorKey := fun n _ => (m.SaveValidatorKey n, n + 1)

def testAddress : String := "0x1234567890abcdef1234567890abcdef12345678"

def testRequest (status : Status) (errorMessage : String) : ValidatorRequest :=
  { ID := "req-1", NumValidators := 2, FeeRecipient := testAddress, Status := status
    CreatedAt := 0, UpdatedAt := 0, ErrorMessage := errorMessage }

/-- Every store call succeeds; reads return a request with the given status. -/
def okReturns (status : Status) (errorMessage : String) (keys : List String) : MockReturns :=
  { CreateRequest := fun _ => none
    GetRequestByID := fun _ => Except.ok (testRequest status errorMessage)
    GetKeysByRequestID := fun _ => Except.ok keys
    UpdateRequestStatus := fun _ => none
    SaveValidatorKey := fun _ => none }

/-- Every store call fails with `database error`. -/
def failingReturns : MockReturns :=
  { CreateRequest := fun _ => some ⟨"database error"⟩
    GetRequestByID := fun _ => Except.error ⟨"request not found"⟩
    GetKeysByRequestID := fun _ => Except.error ⟨"database error"⟩
    UpdateRequestStatus := fun _ => some ⟨"database error"⟩
    SaveValidatorKey := fun _ => some ⟨"database error"⟩ }

def testEnv : Env :=
  { uuidBytes := fun k i => 16 * k + i.val
    randRead := fun k => Except.ok fun i => k + i.val
    now := fun k => 1000 + k }

/-- A service over a mock store on which every call succeeds. -/
def okService : ValidatorService Nat := ⟨mockRepo (okReturns StatusStarted "" [])⟩

/-- A service over a mock store on which every call fails. -/
def failingService : ValidatorService Nat := ⟨mockRepo failingReturns⟩

/-- A service whose store is only read and holds a request with the given
status, error message and keys. -/
def readService (status : Status) (errorMessage : String) (keys : List String) :
    ValidatorService Nat :=
  ⟨readOnlyMockRepo (okReturns status errorMessage keys)⟩

/-- A service whose store holds a successful request but fails to list keys. -/
def keysFailingService : ValidatorService Nat :=
  ⟨readOnlyMockRepo
    { okReturns StatusSuccessful "" [] with
      GetKeysByRequestID := fun _ => Except.error ⟨"database error"⟩ }⟩

def emptyWorld : World Nat :=
  { store := 0, events := [], uuidCtr := 0, randCtr := 0, clock := 0 }

/-! ## The shape of a processing run

The event lists a run of `processValidatorCreation` is made of, and the replay
of the store calls of an event list on a store. -/

/-- The events of one iteration of the loop in which the key is generated and
saved. -/
def okIteration (key : ValidatorKey) : List Event :=
  [Event.keygen key.Key none, Event.call (Call.SaveValidatorKey key) none,
    Event.log "INFO" "Generated validator key"]

/-- The events of successive successful iterations, one per key. -/
def okIterations : List ValidatorKey → List Event
  | [] => []
  | key :: keys => okIteration key ++ okIterations keys

/-- The events after the status write inside the loop, given its result. -/
def afterFailedWrite : Option Error → List Event
  | some _ => [Event.tasksTotalInc "failed", Event.log "ERROR" "Failed to update request status"]
  | none => []

/-- The events of an iteration in which key generation fails with `e`; `uerr`
is the result of the status write. -/
def genFailure (requestID : String) (e : Error) (uerr : Option Error) : List Event :=
  [Event.keygen "" (some e), Event.log "ERROR" "Failed to generate key",
    Event.call (Call.UpdateRequestStatus requestID StatusFailed
      "Error generating validator keys") uerr] ++ afterFailedWrite uerr

/-- The events of an iteration in which saving `key` fails with `e`; `uerr` is
the result of the status write. -/
def saveFailure (requestID : String) (key : ValidatorKey) (e : Error) (uerr : Option Error) :
    List Event :=
  [Event.keygen key.Key none, Event.call (Call.SaveValidatorKey key) (some e),
    Event.log "ERROR" "Failed to save validator key",
    Event.call (Call.UpdateRequestStatus requestID StatusFailed
      "Error saving validator keys") uerr] ++ afterFailedWrite uerr

/-- The events after a loop that ran to its end: the status write with its
result `uerr`, the log line and counter of the outcome, and the observation of
the elapsed time. -/
def finishEvents (requestID : String) (uerr : Option Error) (elapsed : Int) : List Event :=
  match uerr with
  | some e =>
      [Event.call (Call.UpdateRequestStatus requestID StatusSuccessful "") (some e),
        Event.log "ERROR" "Failed to update request status",
        Event.tasksTotalInc "failed",
        Event.taskDurationObserve elapsed]
  | none =>
      [Event.call (Call.UpdateRequestStatus requestID StatusSuccessful "") none,
        Event.log "INFO" "Validator creation completed successfully",
        Event.tasksTotalInc "successful",
        Event.taskDurationObserve elapsed]

/-- The key generations and store calls among a list of events, in order. -/
def keySteps (es : List Event) : List Event :=
  es.filter fun e =>
    match e with
    | Event.keygen _ _ => true
    | Event.call _ _ => true
    | _ => false

/-- The `TasksTotal` labels incremented among a list of events, in order. -/
def taskCounts (es : List Event) : List String :=
  es.filterMap fun e =>
    match e with
    | Event.tasksTotalInc label => some label
    | _ => none

/-- The `TaskDuration` observations among a list of events. -/
def durations (es : List Event) : List Int :=
  es.filterMap fun e =>
    match e with
    | Event.taskDurationObserve d => some d
    | _ => none

/-- The effect of one store call on the store, with the error it returns. -/
def applyCall (repo : RequestRepo σ) (st : σ) : Call → Option Error × σ
  | Call.CreateRequest request => repo.CreateRequest st request
  | Call.GetRequestByID id => (errOf (repo.GetRequestByID st id).1, (repo.GetRequestByID st id).2)
  | Call.GetKeysByRequestID id =>
      (errOf (repo.GetKeysByRequestID st id).1, (repo.GetKeysByRequestID st id).2)
  | Call.UpdateRequestStatus id status errorMessage =>
      repo.UpdateRequestStatus st id status errorMessage
  | Call.SaveValidatorKey key => repo.SaveValidatorKey st key

/-- The store after the store calls of an event list are made on it, in order. -/
def replayStore (repo : RequestRepo σ) : List Event → σ → σ
  | [], st => st
  | Event.call c _ :: es, st => replayStore repo es (applyCall repo st c).2
  | _ :: es, st => replayStore repo es st

/-- The event list records, for each of its store calls, the error the store
returns when the calls are made in order from the given state. -/
def Consistent (repo : RequestRepo σ) : List Event → σ → Prop
  | [], _ => True
  | Event.call c err :: es, st =>
      (applyCall repo st c).1 = err ∧ Consistent repo es (applyCall repo st c).2
  | _ :: es, st => Consistent repo es st

/-- The key generations and store calls of successive successful iterations. -/
def okSteps : List ValidatorKey → List Event
  | [] => []
  | key :: keys =>
      Event.keygen key.Key none :: Event.call (Call.SaveValidatorKey key) none :: okSteps keys

/-- A mock store on which the `k`-th call (counted from 0) of the run fails when
it is a `SaveValidatorKey`, and every other call succeeds. -/
def saveFailsAt (k : Nat) : MockReturns :=
  { okReturns StatusStarted "" [] with
    SaveValidatorKey := fun n => if n = k then some ⟨"database error"⟩ else none }

/-- The test environment, except that the `k`-th random read fails. -/
def genFailsAt (k : Nat) : Env :=
  { testEnv with
    randRead := fun i =>
      if i = k then Except.error ⟨"entropy unavailable"⟩ else testEnv.randRead i }

/-! ## repository

The SQLite store of `internal/repository/validator.go`: the two tables as lists
of rows in insertion order, and each method as the statement it executes.  What
SQLite adds to the statements is the primary key of each table, the foreign key
of `validator_keys.request_id` when the connection enforces foreign keys, and
the errors of the driver itself. -/

/-- The state of the database: the rows of `validator_requests` and of
`validator_keys`, the number of statements executed and the number of
`time.Now()` calls made by the repository. -/
structure Database where
  validator_requests : List ValidatorRequest
  validator_keys : List ValidatorKey
  ops : Nat
  clock : Nat
deriving DecidableEq, Repr

/-- What the repository depends on besides the rows. -/
structure Driver where
  /-- The error of the driver on the `k`-th statement, if it fails (I/O error,
  locked database, closed connection). -/
  fault : Nat → Option Error
  /-- The instant returned by the `k`-th `time.Now()` of the repository. -/
  now : Nat → Int
  /-- Whether the connection enforces foreign keys. -/
  foreignKeys : Bool

def ValidatorRepository.CreateRequest (d : Driver) (db : Database)
    (request : ValidatorRequest) : Option Error × Database :=
  let db1 : Database := { db with ops := db.ops + 1, clock := db.clock + 2 }
  match d.fault db.ops with
  | some err => (some err, db1)
  | none =>
      if db.validator_requests.any (fun r => r.ID = request.ID) then
        (some ⟨"UNIQUE constraint failed: validator_requests.id"⟩, db1)
      else
        (none, { db1 with
          validator_requests := db.validator_requests ++
            [{ request with CreatedAt := d.now db.clock, UpdatedAt := d.now (db.clock + 1) }] })

def ValidatorRepository.GetRequestByID (d : Driver) (db : Database) (id : String) :
    Except Error ValidatorRequest × Database :=
  let db1 : Database := { db with ops := db.ops + 1 }
  match d.fault db.ops with
  | some err => (Except.error err, db1)
  | none =>
      match db.validator_requests.find? (fun r => r.ID = id) with
      | none => (Except.error ⟨"request not found"⟩, db1)
      | some req => (Except.ok req, db1)

def ValidatorRepository.UpdateRequestStatus (d : Driver) (db : Database) (id : String)
    (status : Status) (errorMessage : String) : Option Error × Database :=
  let db1 : Database := { db with ops := db.ops + 1, clock := db.clock + 1 }
  match d.fault db.ops with
  | some err => (some err, db1)
  | none =>
      (none, { db1 with
        validator_requests := db.validator_requests.map fun r =>
          if r.ID = id then
            { r with Status := status, UpdatedAt := d.now db.clock, ErrorMessage := errorMessage }
          else r })

def ValidatorRepository.SaveValidatorKey (d : Driver) (db : Database) (key : ValidatorKey) :
    Option Error × Database :=
  let db1 : Database := { db with ops := db.ops + 1 }
  match d.fault db.ops with
  | some err => (some err, db1)
  | none =>
      if db.validator_keys.any (fun k => k.ID = key.ID) then
        (some ⟨"UNIQUE constraint failed: validator_keys.id"⟩, db1)
      else if d.foreignKeys && !db.validator_requests.any (fun r => r.ID = key.RequestID) then
        (some ⟨"FOREIGN KEY constraint failed"⟩, db1)
      else
        (none, { db1 with validator_keys := db.validator_keys ++ [key] })

/-- The rows of `validator_keys` selected by `WHERE request_id = ?`. -/
def selectKeyRows (db : Database) (requestID : String) : List ValidatorKey :=
  db.validator_keys.filter fun k => k.RequestID = requestID

def ValidatorRepository.GetKeysByRequestID (d : Driver) (db : Database) (requestID : String) :
    Except Error (List String) × Database :=
  let db1 : Database := { db with ops := db.ops + 1 }
  match d.fault db.ops with
  | some err => (Except.error err, db1)
  | none => (Except.ok ((selectKeyRows db requestID).map fun k => k.Key), db1)

/-- Go `repository.ValidatorRepository`, as an implementation of `RequestRepo`. -/
def ValidatorRepository (d : Driver) : RequestRepo Database where
  CreateRequest := ValidatorRepository.CreateRequest d
  GetRequestByID := ValidatorRepository.GetRequestByID d
  GetKeysByRequestID := ValidatorRepository.GetKeysByRequestID d
  UpdateRequestStatus := ValidatorRepository.UpdateRequestStatus d
  SaveValidatorKey := ValidatorRepository.SaveValidatorKey d

/-- The stored status of a request, if the request exists. -/
def storedStatus (db : Database) (id : String) : Option Status :=
  (db.validator_requests.find? fun r => r.ID = id).map fun r => r.Status

/-- What a store shows of a request: the key rows it owns, and its status when
it exists. -/
structure StoreView (σ : Type) where
  keyRows : σ → String → List ValidatorKey
  status : σ → String → Option Status

/-- A store on which a successful `SaveValidatorKey` adds exactly the saved key
to the rows of its request and a failed one adds none, and on which a successful
`UpdateRequestStatus` sets the status of an existing request and a failed one
changes no status; neither touches what the other writes. -/
def WellBehaved (repo : RequestRepo σ) (v : StoreView σ) : Prop :=
  (∀ st key, (repo.SaveValidatorKey st key).1 = none → ∀ r,
      v.keyRows (repo.SaveValidatorKey st key).2 r
        = if key.RequestID = r then v.keyRows st r ++ [key] else v.keyRows st r)
    ∧ (∀ st key e, (repo.SaveValidatorKey st key).1 = some e → ∀ r,
      v.keyRows (repo.SaveValidatorKey st key).2 r = v.keyRows st r)
    ∧ (∀ st key r, v.status (repo.SaveValidatorKey st key).2 r = v.status st r)
    ∧ (∀ st id status m r,
      v.keyRows (repo.UpdateRequestStatus st id status m).2 r = v.keyRows st r)
    ∧ (∀ st id status m, (repo.UpdateRequestStatus st id status m).1 = none →
      v.status st id ≠ none → v.status (repo.UpdateRequestStatus st id status m).2 id = some status)
    ∧ (∀ st id status m e, (repo.UpdateRequestStatus st id status m).1 = some e → ∀ r,
      v.status (repo.UpdateRequestStatus st id status m).2 r = v.status st r)

/-- The view of the SQLite store. -/
def databaseView : StoreView Database :=
  { keyRows := selectKeyRows, status := storedStatus }

/-- The keys saved successfully among a list of events, in order. -/
def savedKeys (es : List Event) : List ValidatorKey :=
  es.filterMap fun e =>
    match e with
    | Event.call (Call.SaveValidatorKey key) none => some key
    | _ => none

/-- A driver that never fails. -/
def okDriver : Driver :=
  { fault := fun _ => none, now := fun k => 2000 + k, foreignKeys := false }

/-- A driver whose `k`-th statement fails. -/
def faultAt (k : Nat) : Driver :=
  { okDriver with fault := fun n => if n = k then some ⟨"database is locked"⟩ else none }

/-- A database that holds the one request `req-1`, in status `started`. -/
def startedDatabase : Database :=
  { validator_requests := [testRequest StatusStarted ""], validator_keys := [], ops := 0
    clock := 0 }

/-- The test environment with a random source that repeats: every read
returns the bytes `0, 1, ..., 31`. -/
def repeatingEnv : Env :=
  { testEnv with randRead := fun _ => Except.ok fun i => i.val }

/-- A database with no rows. -/
def emptyDatabase : Database :=
  { validator_requests := [], validator_keys := [], ops := 0, clock := 0 }

/-- A world on the SQLite store. -/
def databaseWorld (db : Database) : World Database :=
  { store := db, events := [], uuidCtr := 0, randCtr := 0, clock := 0 }

/-- The service on the SQLite store. -/
def databaseService (d : Driver) : ValidatorService Database := ⟨ValidatorRepository d⟩

/-! ## handlers

The HTTP handlers of `internal/api/handlers/validator.go`, run against a
response recorder.  A JSON document written to the response is kept as a
document, not as its bytes; the requests are decoded by the decoder of the
JSON library, a parameter of the handler. -/

/-- The values of the members of the JSON objects the handlers write. -/
inductive JSONValue where
  | string (s : String)
  | strings (xs : List String)
deriving DecidableEq, Repr

/-- The JSON documents the handlers write. -/
inductive JSONDoc where
  | null
  | object (members : List (String × JSONValue))
deriving DecidableEq, Repr

/-- Go `json.Marshal` of a `*models.ValidatorRequestResponse`. -/
def marshalRequestResponse : Option ValidatorRequestResponse → JSONDoc
  | none => JSONDoc.null
  | some v =>
      JSONDoc.object
        [("request_id", JSONValue.string v.RequestID), ("message", JSONValue.string v.Message)]

/-- Go `json.Marshal` of a `*models.ValidatorStatusResponse`: `keys` and
`message` are `omitempty`. -/
def marshalStatusResponse : Option ValidatorStatusResponse → JSONDoc
  | none => JSONDoc.null
  | some v =>
      JSONDoc.object
        ([("status", JSONValue.string v.Status)]
          ++ (if v.Keys = [] then [] else [("keys", JSONValue.strings v.Keys)])
          ++ (if v.Message = "" then [] else [("message", JSONValue.string v.Message)]))

/-- Go `json.Unmarshal` into a `models.ValidatorStatusResponse`, member by
member; members with other names are skipped.  Names are compared exactly. -/
def unmarshalMembers :
    List (String × JSONValue) → ValidatorStatusResponse → Except Error ValidatorStatusResponse
  | [], acc => Except.ok acc
  | (name, value) :: members, acc =>
      if name = "status" then
        match value with
        | JSONValue.string s => unmarshalMembers members { acc with Status := s }
        | JSONValue.strings _ =>
            Except.error ⟨"json: cannot unmarshal array into Go struct field status"⟩
      else if name = "keys" then
        match value with
        | JSONValue.strings xs => unmarshalMembers members { acc with Keys := xs }
        | JSONValue.string _ =>
            Except.error ⟨"json: cannot unmarshal string into Go struct field keys"⟩
      else if name = "message" then
        match value with
        | JSONValue.string s => unmarshalMembers members { acc with Message := s }
        | JSONValue.strings _ =>
            Except.error ⟨"json: cannot unmarshal array into Go struct field message"⟩
      else unmarshalMembers members acc

/-- Go `json.Unmarshal(body, &response)` with a zero `response`. -/
def unmarshalStatusResponse : JSONDoc → Except Error ValidatorStatusResponse
  | JSONDoc.null => Except.ok { Status := "", Keys := [], Message := "" }
  | JSONDoc.object members => unmarshalMembers members { Status := "", Keys := [], Message := "" }

/-- A piece of a response body: a line of text, or a JSON document followed by
a newline. -/
inductive BodyChunk where
  | text (s : String)
  | json (d : JSONDoc)
deriving DecidableEq, Repr

/-- Go `httptest.ResponseRecorder`. -/
structure ResponseRecorder where
  Code : Nat
  HeaderMap : List (String × String)
  Body : List BodyChunk
  wroteHeader : Bool
deriving DecidableEq, Repr

/-- Go `httptest.NewRecorder()`. -/
def NewRecorder : ResponseRecorder :=
  { Code := 200, HeaderMap := [], Body := [], wroteHeader := false }

/-- Go `w.Header().Set(key, value)`. -/
def ResponseRecorder.headerSet (w : ResponseRecorder) (key value : String) : ResponseRecorder :=
  { w with HeaderMap := (w.HeaderMap.filter fun h => h.1 ≠ key) ++ [(key, value)] }

/-- Go `w.Header().Del(key)`. -/
def ResponseRecorder.headerDel (w : ResponseRecorder) (key : String) : ResponseRecorder :=
  { w with HeaderMap := w.HeaderMap.filter fun h => h.1 ≠ key }

/-- Go `w.WriteHeader(code)`: only the first call sets the status code. -/
def ResponseRecorder.WriteHeader (w : ResponseRecorder) (code : Nat) : ResponseRecorder :=
  if w.wroteHeader then w else { w with Code := code, wroteHeader := true }

/-- Go `w.Write(b)`: writes the header with status 200 if none was written. -/
def ResponseRecorder.Write (w : ResponseRecorder) (chunk : BodyChunk) : ResponseRecorder :=
  let w1 := w.WriteHeader 200
  { w1 with Body := w1.Body ++ [chunk] }

def StatusOK : Nat := 200
def StatusAccepted : Nat := 202
def StatusBadRequest : Nat := 400
def StatusNotFound : Nat := 404
def StatusInternalServerError : Nat := 500

/-- Go `http.Error(w, error, code)`. -/
def httpError (w : ResponseRecorder) (error : String) (code : Nat) : ResponseRecorder :=
  let w1 := w.headerDel "Content-Length"
  let w2 := w1.headerSet "Content-Type" "text/plain; charset=utf-8"
  let w3 := w2.headerSet "X-Content-Type-Options" "nosniff"
  let w4 := w3.WriteHeader code
  w4.Write (BodyChunk.text (error ++ "\n"))

/-- Go `json.NewEncoder(w).Encode(v)` for a document that marshals: one write
to the recorder, which cannot fail. -/
def encodeTo (w : ResponseRecorder) (d : JSONDoc) : Option Error × ResponseRecorder :=
  (none, w.Write (BodyChunk.json d))

/-- Go `*http.Request`, as far as the handlers read it: the body and the path
variables of `mux.Vars`. -/
structure Request where
  Body : String
  Vars : List (String × String)

/-- Go `mux.Vars(r)[name]`: the empty string when the variable is absent. -/
def Request.var (r : Request) (name : String) : String :=
  (r.Vars.lookup name).getD ""

/-- Go interface `handlers.Validator`, as a state machine over the state `τ`
behind the service. -/
structure Validator (τ : Type) where
  CreateValidatorRequest :
    ValidatorRequestInput → τ → (Option ValidatorRequestResponse × Option Error) × τ
  GetRequestStatus : String → τ → (Option ValidatorStatusResponse × Option Error) × τ

/-- One invocation of a `Validator` method, with its argument. -/
inductive ServiceCall where
  | CreateValidatorRequest (input : ValidatorRequestInput)
  | GetRequestStatus (requestID : String)
deriving DecidableEq, Repr

/-- Go `handlers.ValidatorHandler`. -/
structure ValidatorHandler (τ : Type) where
  service : Validator τ

/-- The state behind the service, and the service calls made so far. -/
structure HandlerState (τ : Type) where
  service : τ
  calls : List ServiceCall

variable {τ : Type}

def ValidatorHandler.CreateValidator
    (decode : String → Except Error ValidatorRequestInput) (h : ValidatorHandler τ)
    (w : ResponseRecorder) (r : Request) (st : HandlerState τ) :
    ResponseRecorder × HandlerState τ :=
  match decode r.Body with
  | Except.error _ => (httpError w "Invalid request body" StatusBadRequest, st)
  | Except.ok input =>
      let res := h.service.CreateValidatorRequest input st.service
      let st1 : HandlerState τ :=
        { service := res.2, calls := st.calls ++ [ServiceCall.CreateValidatorRequest input] }
      match res.1.2 with
      | some err => (httpError w err.msg StatusBadRequest, st1)
      | none =>
          let w1 := w.headerSet "Content-Type" "application/json"
          let w2 := w1.WriteHeader StatusAccepted
          let enc := encodeTo w2 (marshalRequestResponse res.1.1)
          match enc.1 with
          | some err => (httpError enc.2 err.msg StatusInternalServerError, st1)
          | none => (enc.2, st1)

def ValidatorHandler.GetValidatorStatus (h : ValidatorHandler τ)
    (w : ResponseRecorder) (r : Request) (st : HandlerState τ) :
    ResponseRecorder × HandlerState τ :=
  let requestID := r.var "request_id"
  let res := h.service.GetRequestStatus requestID st.service
  let st1 : HandlerState τ :=
    { service := res.2, calls := st.calls ++ [ServiceCall.GetRequestStatus requestID] }
  match res.1.2 with
  | some err => (httpError w err.msg StatusNotFound, st1)
  | none =>
      let w1 := w.headerSet "Content-Type" "application/json"
      let enc := encodeTo w1 (marshalStatusResponse res.1.1)
      match enc.1 with
      | some err => (httpError enc.2 err.msg StatusInternalServerError, st1)
      | none => (enc.2, st1)

/-- The service of `internal/service` behind the interface `Validator`. -/
def ValidatorService.asValidator (env : Env) (s : ValidatorService σ) : Validator (World σ) :=
  { CreateValidatorRequest := fun input w => s.CreateValidatorRequest env input w
    GetRequestStatus := fun requestID w => s.GetRequestStatus requestID w }

/-- A decoder for the tests: the body `invalid-json` does not decode, any other
body decodes to three validators for the test address. -/
def testDecode (body : String) : Except Error ValidatorRequestInput :=
  if body = "invalid-json" then Except.error ⟨"invalid character"⟩
  else Except.ok ⟨3, testAddress⟩

/-! ## Theorems -/

theorem newEvents_self (w : World σ) : newEvents w w = [] := by
  simp [newEvents]

/-! ### The address check -/

theorem charClass_hex_iff (c : Char) :
    ([('0', '9'), ('a', 'f'), ('A', 'F')].any fun r => decide (r.1 ≤ c) && decide (c ≤ r.2)) = true
      ↔ IsHexChar c := by
  simp [IsHexChar]

/-- Repeating a one-character matcher `n` times consumes exactly `n` characters,
all of which pass the test. -/
theorem matchRep_single (p : Char → Bool) (f : Nat → List Char → Option (Nat × List Char))
    (hnil : ∀ pos, f pos [] = none)
    (hcons : ∀ pos x t, f pos (x :: t) = if p x = true then some (pos + 1, t) else none)
    (n pos : Nat) (l : List Char) :
    matchRep f n pos l
      = if n ≤ l.length ∧ ∀ c ∈ l.take n, p c = true then some (pos + n, l.drop n) else none := by
  induction n generalizing pos l with
  | zero => simp [matchRep]
  | succ n ih =>
    cases l with
    | nil => simp [matchRep, hnil]
    | cons x t =>
      by_cases hx : p x = true
      · simp only [matchRep, hcons, hx, if_true, Option.some_bind, ih, List.take_succ_cons,
          List.forall_mem_cons, true_and, List.length_cons, Nat.add_le_add_iff_right,
          List.drop_succ_cons]
        simp [Nat.add_assoc, Nat.add_comm 1 n]
      · simp only [matchRep, hcons, hx, List.take_succ_cons, List.forall_mem_cons, false_and,
          and_false, if_false]
        simp

theorem addressRegexp_matchAt_succ (i : Nat) (t : List Char) :
    addressRegexp.matchAt (i + 1) t = none := by
  simp [addressRegexp, Regexp.matchAt]

theorem addressRegexp_matchAt_zero (t : List Char) :
    (addressRegexp.matchAt 0 t).isSome = true
      ↔ ∃ rest, t = '0' :: 'x' :: rest ∧ rest.length = 40 ∧ ∀ c ∈ rest, IsHexChar c := by
  have hrep := matchRep_single
    (fun c => [('0', '9'), ('a', 'f'), ('A', 'F')].any fun r => decide (r.1 ≤ c) && decide (c ≤ r.2))
    (fun p t => (Regexp.charClass [('0', '9'), ('a', 'f'), ('A', 'F')]).matchAt p t)
    (fun _ => rfl) (fun _ _ _ => rfl)
  match t with
  | [] => simp [addressRegexp, Regexp.matchAt]
  | [a] => 
    by_cases ha : a = '0' <;> simp [addressRegexp, Regexp.matchAt, ha]
  | a :: b :: rest =>
    by_cases ha : a = '0'
    · by_cases hb : b = 'x'
      · subst ha hb
        simp only [addressRegexp, Regexp.matchAt, if_true, Option.some_bind, hrep]
        simp only [charClass_hex_iff]
        by_cases hc : 40 ≤ rest.length ∧ ∀ c ∈ List.take 40 rest, IsHexChar c
        · rw [if_pos hc]
          by_cases hd : rest.length ≤ 40
          · have hlen : rest.length = 40 := Nat.le_antisymm hd hc.1
            have htake : List.take 40 rest = rest := List.take_of_length_le hd
            have hdrop : List.drop 40 rest = [] := List.drop_of_length_le hd
            have hall : ∀ c ∈ rest, IsHexChar c := by
              intro c hmem
              exact hc.2 c (by rw [htake]; exact hmem)
            simp only [Option.some_bind, hdrop, List.isEmpty_nil, if_true, Option.isSome_some,
              true_iff]
            exact ⟨rest, rfl, hlen, hall⟩
          · have hdrop : (List.drop 40 rest).isEmpty = false := by
              cases hdr : List.drop 40 rest with
              | nil =>
                exact absurd (List.drop_eq_nil_iff.mp hdr) hd
              | cons y ys => rfl
            simp only [Option.some_bind, hdrop, Bool.false_eq_true, if_false, Option.isSome_none,
              false_iff]
            rintro ⟨r, hr, hlen, -⟩
            have : rest = r := by simpa using hr
            subst this
            omega
        · rw [if_neg hc]
          simp only [Option.none_bind, Option.isSome_none, Bool.false_eq_true, false_iff]
          rintro ⟨r, hr, hlen, hall⟩
          have : rest = r := by simpa using hr
          subst this
          apply hc
          refine ⟨by omega, ?_⟩
          intro c hmem
          exact hall c (List.mem_of_mem_take hmem)
      · simp [addressRegexp, Regexp.matchAt, ha, hb]
    · simp [addressRegexp, Regexp.matchAt, ha]


theorem isValidEthereumAddress_iff (a : String) :
    isValidEthereumAddress a = true ↔ WellFormedAddress a := by
  have hm : isValidEthereumAddress a = true ↔ (addressRegexp.matchAt 0 a.data).isSome = true := by
    unfold isValidEthereumAddress Regexp.MatchString
    rw [List.any_eq_true]
    constructor
    · rintro ⟨i, -, hi⟩
      cases i with
      | zero => simpa using hi
      | succ i => simp [addressRegexp_matchAt_succ] at hi
    · intro h
      exact ⟨0, by simp, by simpa using h⟩
  rw [hm, addressRegexp_matchAt_zero]
  unfold WellFormedAddress
  constructor
  · rintro ⟨rest, hd, hlen, hall⟩
    refine ⟨?_, ?_, ?_⟩
    · simp [String.length, hd, hlen]
    · simp [hd]
    · simpa [hd] using hall
  · rintro ⟨hlen, hpre, hall⟩
    match hdata : a.data, hpre with
    | x :: y :: rest, hp =>
      rw [hdata] at hall
      simp only [List.take_succ_cons, List.take_zero, List.cons.injEq, and_true] at hp
      obtain ⟨rfl, rfl⟩ := hp
      refine ⟨rest, rfl, ?_, by simpa using hall⟩
      have : a.data.length = 42 := hlen
      rw [hdata] at this
      simpa using this
    | [x], hp => simp at hp
    | [], hp => simp at hp

/-! ### `CreateValidatorRequest` -/

/-- C1: with `NumValidators <= 0`, whatever the fee recipient,
`CreateValidatorRequest` returns a nil response and the error
"number of validators must be positive", and leaves the world as it was: no
store call is made and no processing unit is launched. -/
theorem C1_nonpositive_count_rejected (env : Env) (s : ValidatorService σ)
    (input : ValidatorRequestInput) (w : World σ) (h : input.NumValidators ≤ 0) :
    (s.CreateValidatorRequest env input w).1
        = (none, some ⟨"number of validators must be positive"⟩)
      ∧ (s.CreateValidatorRequest env input w).2 = w
      ∧ storeCalls (newEvents w (s.CreateValidatorRequest env input w).2) = []
      ∧ spawns (newEvents w (s.CreateValidatorRequest env input w).2) = [] := by
  have hr : s.CreateValidatorRequest env input w
      = ((none, some ⟨"number of validators must be positive"⟩), w) := by
    simp [ValidatorService.CreateValidatorRequest, h, fmtErrorf]
  rw [hr]
  simp [newEvents_self, storeCalls, spawns]

theorem C1_nonpositive_count_rejected_witness :
    (okService.CreateValidatorRequest testEnv ⟨0, testAddress⟩ emptyWorld).1
        = (none, some ⟨"number of validators must be positive"⟩)
      ∧ (okService.CreateValidatorRequest testEnv ⟨0, testAddress⟩ emptyWorld).2 = emptyWorld
      ∧ storeCalls (newEvents emptyWorld
          (okService.CreateValidatorRequest testEnv ⟨0, testAddress⟩ emptyWorld).2) = []
      ∧ spawns (newEvents emptyWorld
          (okService.CreateValidatorRequest testEnv ⟨0, testAddress⟩ emptyWorld).2) = [] :=
  C1_nonpositive_count_rejected testEnv okService ⟨0, testAddress⟩ emptyWorld (by decide)

theorem newEvents_append (w w2 : World σ) (es : List Event)
    (h : w2.events = w.events ++ es) : newEvents w w2 = es := by
  simp [newEvents, h]

/-- The request `CreateValidatorRequest` builds for a valid input in world `w`. -/
theorem CreateValidatorRequest_valid (env : Env) (s : ValidatorService σ)
    (input : ValidatorRequestInput) (w : World σ) (hn : 0 < input.NumValidators)
    (ha : WellFormedAddress input.FeeRecipient) :
    ∃ request : ValidatorRequest,
      request.ID = uuidString (uuidOfRandom (env.uuidBytes w.uuidCtr))
      ∧ request.NumValidators = input.NumValidators
      ∧ request.FeeRecipient = input.FeeRecipient
      ∧ request.Status = StatusStarted
      ∧ request.ErrorMessage = ""
      ∧ ((∃ err, (s.repo.CreateRequest w.store request).1 = some err
            ∧ (s.CreateValidatorRequest env input w).1 = (none, some err)
            ∧ (s.CreateValidatorRequest env input w).2.events
                = w.events ++ [Event.call (Call.CreateRequest request) (some err)])
          ∨ ((s.repo.CreateRequest w.store request).1 = none
            ∧ (s.CreateValidatorRequest env input w).1
                = (some ⟨request.ID, "Validator creation in progress"⟩, none)
            ∧ (s.CreateValidatorRequest env input w).2.events
                = w.events ++ [Event.call (Call.CreateRequest request) none,
                    Event.spawn request.ID input.NumValidators input.FeeRecipient])) := by
  have hv : isValidEthereumAddress input.FeeRecipient = true :=
    (isValidEthereumAddress_iff _).mpr ha
  have hn2 : ¬ input.NumValidators ≤ 0 := not_le.mpr hn
  refine ⟨{ ID := uuidString (uuidOfRandom (env.uuidBytes w.uuidCtr))
            NumValidators := input.NumValidators
            FeeRecipient := input.FeeRecipient
            Status := StatusStarted
            CreatedAt := env.now w.clock
            UpdatedAt := env.now (w.clock + 1)
            ErrorMessage := "" }, rfl, rfl, rfl, rfl, rfl, ?_⟩
  cases hc : (s.repo.CreateRequest w.store
      { ID := uuidString (uuidOfRandom (env.uuidBytes w.uuidCtr))
        NumValidators := input.NumValidators
        FeeRecipient := input.FeeRecipient
        Status := StatusStarted
        CreatedAt := env.now w.clock
        UpdatedAt := env.now (w.clock + 1)
        ErrorMessage := "" }).1 with
  | some err =>
    left
    refine ⟨err, rfl, ?_, ?_⟩ <;>
      simp [ValidatorService.CreateValidatorRequest, hn2, hv, ValidatorService.CreateRequest,
        uuidNewString, timeNow, emit, hc]
  | none =>
    right
    refine ⟨rfl, ?_, ?_⟩ <;>
      simp [ValidatorService.CreateValidatorRequest, hn2, hv, ValidatorService.CreateRequest,
        uuidNewString, timeNow, emit, hc]

theorem uuidString_ne_empty (u : List Nat) : uuidString u ≠ "" := by
  intro h
  have hlen := congrArg String.length h
  simp [uuidString, String.length] at hlen

/-- C2: for an input with `NumValidators > 0`, `CreateValidatorRequest` fails with
the error "invalid Ethereum address format", a nil response and no store call
if and only if the fee recipient is malformed, that is, not of length 42 with
the lowercase prefix `0x` followed by 40 characters in `0-9`, `a-f`, `A-F`. -/
theorem C2_malformed_address_rejected (env : Env) (s : ValidatorService σ)
    (input : ValidatorRequestInput) (w : World σ) (hn : 0 < input.NumValidators) :
    ((s.CreateValidatorRequest env input w).1
          = (none, some ⟨"invalid Ethereum address format"⟩)
        ∧ storeCalls (newEvents w (s.CreateValidatorRequest env input w).2) = [])
      ↔ ¬ WellFormedAddress input.FeeRecipient := by
  constructor
  · rintro ⟨-, hcalls⟩ ha
    obtain ⟨request, -, -, -, -, -, h⟩ := CreateValidatorRequest_valid env s input w hn ha
    rcases h with ⟨err, -, -, hev⟩ | ⟨-, -, hev⟩
    · rw [newEvents_append _ _ _ hev] at hcalls
      simp [storeCalls] at hcalls
    · rw [newEvents_append _ _ _ hev] at hcalls
      simp [storeCalls] at hcalls
  · intro ha
    have hv : isValidEthereumAddress input.FeeRecipient = false := by
      rw [← Bool.not_eq_true]
      exact fun h => ha ((isValidEthereumAddress_iff _).mp h)
    have hn2 : ¬ input.NumValidators ≤ 0 := not_le.mpr hn
    have hr : s.CreateValidatorRequest env input w
        = ((none, some ⟨"invalid Ethereum address format"⟩), w) := by
      simp [ValidatorService.CreateValidatorRequest, hn2, hv, fmtErrorf]
    rw [hr]
    simp [newEvents_self, storeCalls]

theorem C2_malformed_address_rejected_witness :
    ((okService.CreateValidatorRequest testEnv ⟨3, "invalid-address"⟩ emptyWorld).1
          = (none, some ⟨"invalid Ethereum address format"⟩)
        ∧ storeCalls (newEvents emptyWorld
            (okService.CreateValidatorRequest testEnv ⟨3, "invalid-address"⟩ emptyWorld).2) = [])
      ↔ ¬ WellFormedAddress "invalid-address" :=
  C2_malformed_address_rejected testEnv okService ⟨3, "invalid-address"⟩ emptyWorld (by decide)

/-- The store after `CreateValidatorRequest` on a valid input: it is the state
the store's `CreateRequest` returns for the request that was built, and the
result and the launch follow the error `CreateRequest` returns. -/
theorem CreateValidatorRequest_store (env : Env) (s : ValidatorService σ)
    (input : ValidatorRequestInput) (w : World σ) (hn : 0 < input.NumValidators)
    (ha : WellFormedAddress input.FeeRecipient) :
    ∃ request : ValidatorRequest,
      request.ID = uuidString (uuidOfRandom (env.uuidBytes w.uuidCtr))
      ∧ request.NumValidators = input.NumValidators
      ∧ request.FeeRecipient = input.FeeRecipient
      ∧ request.Status = StatusStarted
      ∧ request.ErrorMessage = ""
      ∧ (s.CreateValidatorRequest env input w).2.store = (s.repo.CreateRequest w.store request).2
      ∧ ((∃ err, (s.repo.CreateRequest w.store request).1 = some err
            ∧ (s.CreateValidatorRequest env input w).1 = (none, some err)
            ∧ (s.CreateValidatorRequest env input w).2.events
                = w.events ++ [Event.call (Call.CreateRequest request) (some err)])
          ∨ ((s.repo.CreateRequest w.store request).1 = none
            ∧ (s.CreateValidatorRequest env input w).1
                = (some ⟨request.ID, "Validator creation in progress"⟩, none)
            ∧ (s.CreateValidatorRequest env input w).2.events
                = w.events ++ [Event.call (Call.CreateRequest request) none,
                    Event.spawn request.ID input.NumValidators input.FeeRecipient])) := by
  have hv : isValidEthereumAddress input.FeeRecipient = true :=
    (isValidEthereumAddress_iff _).mpr ha
  have hn2 : ¬ input.NumValidators ≤ 0 := not_le.mpr hn
  refine ⟨{ ID := uuidString (uuidOfRandom (env.uuidBytes w.uuidCtr))
            NumValidators := input.NumValidators
            FeeRecipient := input.FeeRecipient
            Status := StatusStarted
            CreatedAt := env.now w.clock
            UpdatedAt := env.now (w.clock + 1)
            ErrorMessage := "" }, rfl, rfl, rfl, rfl, rfl, ?_, ?_⟩
  · cases hc : (s.repo.CreateRequest w.store
        { ID := uuidString (uuidOfRandom (env.uuidBytes w.uuidCtr))
          NumValidators := input.NumValidators
          FeeRecipient := input.FeeRecipient
          Status := StatusStarted
          CreatedAt := env.now w.clock
          UpdatedAt := env.now (w.clock + 1)
          ErrorMessage := "" }).1 <;>
      simp [ValidatorService.CreateValidatorRequest, hn2, hv, ValidatorService.CreateRequest,
        uuidNewString, timeNow, emit, hc]
  · cases hc : (s.repo.CreateRequest w.store
        { ID := uuidString (uuidOfRandom (env.uuidBytes w.uuidCtr))
          NumValidators := input.NumValidators
          FeeRecipient := input.FeeRecipient
          Status := StatusStarted
          CreatedAt := env.now w.clock
          UpdatedAt := env.now (w.clock + 1)
          ErrorMessage := "" }).1 with
    | some err =>
      left
      refine ⟨err, rfl, ?_, ?_⟩ <;>
        simp [ValidatorService.CreateValidatorRequest, hn2, hv, ValidatorService.CreateRequest,
          uuidNewString, timeNow, emit, hc]
    | none =>
      right
      refine ⟨rfl, ?_, ?_⟩ <;>
        simp [ValidatorService.CreateValidatorRequest, hn2, hv, ValidatorService.CreateRequest,
          uuidNewString, timeNow, emit, hc]

/-- A `CreateRequest` of the SQLite store that returns no error has inserted
the request as a new row, with the repository's own timestamps, and no row had
its id before. -/
theorem CreateRequest_inserts (d : Driver) (db : Database) (request : ValidatorRequest)
    (h : (ValidatorRepository.CreateRequest d db request).1 = none) :
    (ValidatorRepository.CreateRequest d db request).2.validator_requests
        = db.validator_requests ++
          [{ request with CreatedAt := d.now db.clock, UpdatedAt := d.now (db.clock + 1) }]
      ∧ (db.validator_requests.find? fun r => r.ID = request.ID) = none := by
  unfold ValidatorRepository.CreateRequest at h ⊢
  simp only [] at h ⊢
  split at h
  · simp at h
  · by_cases hany : (db.validator_requests.any fun r => decide (r.ID = request.ID)) = true
    · simp [hany] at h
    · simp only [hany, Bool.false_eq_true, if_false, true_and]
      rw [List.find?_eq_none]
      intro x hx hp
      apply hany
      rw [List.any_eq_true]
      exact ⟨x, hx, hp⟩

/-- C3: for an input with `NumValidators > 0` and a well-formed fee recipient,
when the store's `CreateRequest` succeeds, `CreateValidatorRequest` returns no
error and a response with the message "Validator creation in progress" and a
non-empty `RequestID` equal to the `ID` of the one request it passed to
`CreateRequest`; that request has status `started`, an empty error message and
the input's `NumValidators` and `FeeRecipient`, and exactly one processing unit
is launched, for that request.  The request is persisted: the store's
`CreateRequest` returned no error for it, and the store after the call is the
state that `CreateRequest` produced.  On the SQLite store this means that,
whenever the call returns a response, the row read back by the response's
`RequestID` has that id, status `started`, an empty error message and the
input's `NumValidators` and `FeeRecipient`, and `GetRequestByID` returns it. -/
theorem C3_valid_request_created (env : Env) (s : ValidatorService σ)
    (input : ValidatorRequestInput) (w : World σ) (hn : 0 < input.NumValidators)
    (ha : WellFormedAddress input.FeeRecipient) (request : ValidatorRequest)
    (hok : Event.call (Call.CreateRequest request) none
        ∈ newEvents w (s.CreateValidatorRequest env input w).2) :
    storeCalls (newEvents w (s.CreateValidatorRequest env input w).2)
        = [Call.CreateRequest request]
      ∧ (s.CreateValidatorRequest env input w).1
          = (some ⟨request.ID, "Validator creation in progress"⟩, none)
      ∧ request.ID ≠ ""
      ∧ request.Status = StatusStarted
      ∧ request.ErrorMessage = ""
      ∧ request.NumValidators = input.NumValidators
      ∧ request.FeeRecipient = input.FeeRecipient
      ∧ spawns (newEvents w (s.CreateValidatorRequest env input w).2)
          = [(request.ID, input.NumValidators, input.FeeRecipient)]
      ∧ (s.repo.CreateRequest w.store request).1 = none
      ∧ (s.CreateValidatorRequest env input w).2.store
          = (s.repo.CreateRequest w.store request).2
      ∧ (∀ (d : Driver) (dw : World Database) (response : ValidatorRequestResponse),
          ((databaseService d).CreateValidatorRequest env input dw).1 = (some response, none) →
          ∃ row : ValidatorRequest,
            (((databaseService d).CreateValidatorRequest env input dw).2.store.validator_requests.find?
                fun r => r.ID = response.RequestID) = some row
              ∧ row.ID = response.RequestID
              ∧ row.NumValidators = input.NumValidators
              ∧ row.FeeRecipient = input.FeeRecipient
              ∧ row.Status = StatusStarted
              ∧ row.ErrorMessage = ""
              ∧ (d.fault ((databaseService d).CreateValidatorRequest env input dw).2.store.ops
                    = none →
                  ((ValidatorRepository d).GetRequestByID
                      ((databaseService d).CreateValidatorRequest env input dw).2.store
                      response.RequestID).1 = Except.ok row)) := by
  obtain ⟨request2, hid, hnum, hfee, hst, hmsg, hstore, h⟩ :=
    CreateValidatorRequest_store env s input w hn ha
  have hdb : ∀ (d : Driver) (dw : World Database) (response : ValidatorRequestResponse),
      ((databaseService d).CreateValidatorRequest env input dw).1 = (some response, none) →
      ∃ row : ValidatorRequest,
        (((databaseService d).CreateValidatorRequest env input dw).2.store.validator_requests.find?
            fun r => r.ID = response.RequestID) = some row
          ∧ row.ID = response.RequestID
          ∧ row.NumValidators = input.NumValidators
          ∧ row.FeeRecipient = input.FeeRecipient
          ∧ row.Status = StatusStarted
          ∧ row.ErrorMessage = ""
          ∧ (d.fault ((databaseService d).CreateValidatorRequest env input dw).2.store.ops
                = none →
              ((ValidatorRepository d).GetRequestByID
                  ((databaseService d).CreateValidatorRequest env input dw).2.store
                  response.RequestID).1 = Except.ok row) := by
    intro d dw response hresp
    obtain ⟨req, -, rnum, rfee, rst, rmsg, rstore, rh⟩ :=
      CreateValidatorRequest_store env (databaseService d) input dw hn ha
    rcases rh with ⟨err, -, rres, -⟩ | ⟨rok, rres, -⟩
    · rw [rres] at hresp
      simp at hresp
    · rw [rres] at hresp
      have hrid : response.RequestID = req.ID := by
        have := (Prod.mk.inj hresp).1
        simp only [Option.some.injEq] at this
        rw [← this]
      have rok2 : (ValidatorRepository.CreateRequest d dw.store req).1 = none := rok
      obtain ⟨hrows, hfresh⟩ := CreateRequest_inserts d dw.store req rok2
      have hstore2 : ((databaseService d).CreateValidatorRequest env input dw).2.store
          = (ValidatorRepository.CreateRequest d dw.store req).2 := rstore
      have hfind : (((databaseService d).CreateValidatorRequest env input
            dw).2.store.validator_requests.find? fun r => r.ID = response.RequestID)
          = some { req with CreatedAt := d.now dw.store.clock
                            UpdatedAt := d.now (dw.store.clock + 1) } := by
        rw [hstore2, hrows, hrid, List.find?_append, hfresh]
        simp
      refine ⟨_, hfind, hrid.symm, rnum, rfee, rst, rmsg, ?_⟩
      intro hfault
      simp only [ValidatorRepository, ValidatorRepository.GetRequestByID, hfault, hfind]
  rcases h with ⟨err, -, -, hev⟩ | ⟨hrepo, hres, hev⟩
  · have hnew := newEvents_append _ _ _ hev
    rw [hnew] at hok
    simp at hok
  · have hnew := newEvents_append _ _ _ hev
    rw [hnew] at hok ⊢
    have hreq : request = request2 := by simpa using hok
    subst hreq
    refine ⟨by simp [storeCalls], hres, ?_, hst, hmsg, hnum, hfee, by simp [spawns], hrepo,
      hstore, hdb⟩
    rw [hid]; exact uuidString_ne_empty _

/-- Three validators for the test address: on the mock store the one
`CreateRequest` call moves the store to its next state, and on an empty SQLite
database the request can be read back in status `started`. -/
theorem C3_valid_request_created_witness :
    (okService.CreateValidatorRequest testEnv ⟨3, testAddress⟩ emptyWorld).1
        = (some ⟨"00010203-0405-4607-8809-0a0b0c0d0e0f", "Validator creation in progress"⟩,
            none)
      ∧ (okService.CreateValidatorRequest testEnv ⟨3, testAddress⟩ emptyWorld).2.store = 1
      ∧ ∃ row : ValidatorRequest,
          (((databaseService okDriver).CreateValidatorRequest testEnv ⟨3, testAddress⟩
              (databaseWorld emptyDatabase)).2.store.validator_requests.find?
              fun r => r.ID = "00010203-0405-4607-8809-0a0b0c0d0e0f") = some row
            ∧ row.ID = "00010203-0405-4607-8809-0a0b0c0d0e0f"
            ∧ row.NumValidators = 3
            ∧ row.FeeRecipient = testAddress
            ∧ row.Status = StatusStarted
            ∧ row.ErrorMessage = ""
            ∧ (okDriver.fault ((databaseService okDriver).CreateValidatorRequest testEnv
                  ⟨3, testAddress⟩ (databaseWorld emptyDatabase)).2.store.ops = none →
                ((ValidatorRepository okDriver).GetRequestByID
                    ((databaseService okDriver).CreateValidatorRequest testEnv ⟨3, testAddress⟩
                      (databaseWorld emptyDatabase)).2.store
                    "00010203-0405-4607-8809-0a0b0c0d0e0f").1 = Except.ok row) :=
  ⟨(C3_valid_request_created testEnv okService ⟨3, testAddress⟩ emptyWorld (by decide)
      (by decide)
      ⟨"00010203-0405-4607-8809-0a0b0c0d0e0f", 3, testAddress, StatusStarted, 1000, 1001, ""⟩
      (by decide)).2.1,
    (C3_valid_request_created testEnv okService ⟨3, testAddress⟩ emptyWorld (by decide)
      (by decide)
      ⟨"00010203-0405-4607-8809-0a0b0c0d0e0f", 3, testAddress, StatusStarted, 1000, 1001, ""⟩
      (by decide)).2.2.2.2.2.2.2.2.2.1,
    (C3_valid_request_created testEnv okService ⟨3, testAddress⟩ emptyWorld (by decide)
      (by decide)
      ⟨"00010203-0405-4607-8809-0a0b0c0d0e0f", 3, testAddress, StatusStarted, 1000, 1001, ""⟩
      (by decide)).2.2.2.2.2.2.2.2.2.2 okDriver (databaseWorld emptyDatabase)
      ⟨"00010203-0405-4607-8809-0a0b0c0d0e0f", "Validator creation in progress"⟩ (by decide)⟩

/-- C4: for a valid input, if the store's `CreateRequest` returns an error `e`,
`CreateValidatorRequest` returns a nil response and exactly the error `e`; the
one `CreateRequest` call is its only store call (no retry, no
`SaveValidatorKey`, no `UpdateRequestStatus`) and no processing unit is
launched. -/
theorem C4_store_failure_propagated (env : Env) (s : ValidatorService σ)
    (input : ValidatorRequestInput) (w : World σ) (hn : 0 < input.NumValidators)
    (ha : WellFormedAddress input.FeeRecipient) (request : ValidatorRequest) (e : Error)
    (hfail : Event.call (Call.CreateRequest request) (some e)
        ∈ newEvents w (s.CreateValidatorRequest env input w).2) :
    (s.CreateValidatorRequest env input w).1 = (none, some e)
      ∧ storeCalls (newEvents w (s.CreateValidatorRequest env input w).2)
          = [Call.CreateRequest request]
      ∧ spawns (newEvents w (s.CreateValidatorRequest env input w).2) = [] := by
  obtain ⟨request2, -, -, -, -, -, h⟩ := CreateValidatorRequest_valid env s input w hn ha
  rcases h with ⟨err, -, hres, hev⟩ | ⟨-, -, hev⟩
  · have hnew := newEvents_append _ _ _ hev
    rw [hnew] at hfail ⊢
    simp only [List.mem_singleton, Event.call.injEq, Call.CreateRequest.injEq,
      Option.some.injEq] at hfail
    obtain ⟨rfl, rfl⟩ := hfail
    exact ⟨hres, by simp [storeCalls], by simp [spawns]⟩
  · have hnew := newEvents_append _ _ _ hev
    rw [hnew] at hfail
    simp at hfail

theorem C4_store_failure_propagated_witness :
    (failingService.CreateValidatorRequest testEnv ⟨3, testAddress⟩ emptyWorld).1
        = (none, some ⟨"database error"⟩)
      ∧ storeCalls (newEvents emptyWorld
          (failingService.CreateValidatorRequest testEnv ⟨3, testAddress⟩ emptyWorld).2)
          = [Call.CreateRequest ⟨"00010203-0405-4607-8809-0a0b0c0d0e0f", 3, testAddress,
              StatusStarted, 1000, 1001, ""⟩]
      ∧ spawns (newEvents emptyWorld
          (failingService.CreateValidatorRequest testEnv ⟨3, testAddress⟩ emptyWorld).2) = [] :=
  C4_store_failure_propagated testEnv failingService ⟨3, testAddress⟩ emptyWorld (by decide)
    (by decide) ⟨"00010203-0405-4607-8809-0a0b0c0d0e0f", 3, testAddress, StatusStarted, 1000,
      1001, ""⟩ ⟨"database error"⟩ (by decide)

/-! ### `GetRequestStatus` -/

theorem GetRequestStatus_not_found (s : ValidatorService σ) (id : String) (w : World σ)
    (e : Error) (hg : (s.repo.GetRequestByID w.store id).1 = Except.error e) :
    (s.GetRequestStatus id w).1 = (none, some e)
      ∧ (s.GetRequestStatus id w).2.events
          = w.events ++ [Event.call (Call.GetRequestByID id) (some e)]
      ∧ (s.GetRequestStatus id w).2.store = (s.repo.GetRequestByID w.store id).2 := by
  simp [ValidatorService.GetRequestStatus, ValidatorService.GetRequestByID, hg, emit, errOf]

theorem GetRequestStatus_keys_error (s : ValidatorService σ) (id : String) (w : World σ)
    (request : ValidatorRequest) (e : Error)
    (hg : (s.repo.GetRequestByID w.store id).1 = Except.ok request)
    (hs : request.Status = StatusSuccessful)
    (hk : (s.repo.GetKeysByRequestID (s.repo.GetRequestByID w.store id).2 id).1
        = Except.error e) :
    (s.GetRequestStatus id w).1 = (none, some e)
      ∧ (s.GetRequestStatus id w).2.events
          = w.events ++ [Event.call (Call.GetRequestByID id) none,
              Event.call (Call.GetKeysByRequestID id) (some e)]
      ∧ (s.GetRequestStatus id w).2.store
          = (s.repo.GetKeysByRequestID (s.repo.GetRequestByID w.store id).2 id).2 := by
  simp [ValidatorService.GetRequestStatus, ValidatorService.GetRequestByID,
    ValidatorService.GetKeysByRequestID, hg, hs, hk, emit, errOf]

theorem GetRequestStatus_keys_ok (s : ValidatorService σ) (id : String) (w : World σ)
    (request : ValidatorRequest) (keys : List String)
    (hg : (s.repo.GetRequestByID w.store id).1 = Except.ok request)
    (hs : request.Status = StatusSuccessful)
    (hk : (s.repo.GetKeysByRequestID (s.repo.GetRequestByID w.store id).2 id).1
        = Except.ok keys) :
    (s.GetRequestStatus id w).1 = (some ⟨StatusSuccessful, keys, ""⟩, none)
      ∧ (s.GetRequestStatus id w).2.events
          = w.events ++ [Event.call (Call.GetRequestByID id) none,
              Event.call (Call.GetKeysByRequestID id) none]
      ∧ (s.GetRequestStatus id w).2.store
          = (s.repo.GetKeysByRequestID (s.repo.GetRequestByID w.store id).2 id).2 := by
  simp [ValidatorService.GetRequestStatus, ValidatorService.GetRequestByID,
    ValidatorService.GetKeysByRequestID, hg, hs, hk, emit, errOf]

theorem GetRequestStatus_not_successful (s : ValidatorService σ) (id : String) (w : World σ)
    (request : ValidatorRequest)
    (hg : (s.repo.GetRequestByID w.store id).1 = Except.ok request)
    (hs : request.Status ≠ StatusSuccessful) :
    (s.GetRequestStatus id w).1
        = (some ⟨request.Status, [],
            if request.Status = StatusFailed then request.ErrorMessage else ""⟩, none)
      ∧ (s.GetRequestStatus id w).2.events
          = w.events ++ [Event.call (Call.GetRequestByID id) none]
      ∧ (s.GetRequestStatus id w).2.store = (s.repo.GetRequestByID w.store id).2 := by
  simp only [ValidatorService.GetRequestStatus, ValidatorService.GetRequestByID, hg, if_neg hs]
  by_cases hf : request.Status = StatusFailed <;> simp [hf, emit, errOf]

theorem status_failed_ne_successful : StatusFailed ≠ StatusSuccessful := by decide

theorem status_started_ne_successful : StatusStarted ≠ StatusSuccessful := by decide

theorem status_started_ne_failed : StatusStarted ≠ StatusFailed := by decide

/-- The result of `GetRequestStatus` depends on the world only through the store. -/
theorem GetRequestStatus_result_of_store (s : ValidatorService σ) (id : String)
    (w1 w2 : World σ) (h : w1.store = w2.store) :
    (s.GetRequestStatus id w1).1 = (s.GetRequestStatus id w2).1 := by
  cases hg : (s.repo.GetRequestByID w2.store id).1 with
  | error e =>
    rw [(GetRequestStatus_not_found s id w2 e hg).1,
      (GetRequestStatus_not_found s id w1 e (h ▸ hg)).1]
  | ok request =>
    have hg1 : (s.repo.GetRequestByID w1.store id).1 = Except.ok request := h ▸ hg
    by_cases hs : request.Status = StatusSuccessful
    · cases hk : (s.repo.GetKeysByRequestID (s.repo.GetRequestByID w2.store id).2 id).1 with
      | error e =>
        rw [(GetRequestStatus_keys_error s id w2 request e hg hs hk).1,
          (GetRequestStatus_keys_error s id w1 request e hg1 hs (h ▸ hk)).1]
      | ok keys =>
        rw [(GetRequestStatus_keys_ok s id w2 request keys hg hs hk).1,
          (GetRequestStatus_keys_ok s id w1 request keys hg1 hs (h ▸ hk)).1]
    · rw [(GetRequestStatus_not_successful s id w2 request hg hs).1,
        (GetRequestStatus_not_successful s id w1 request hg1 hs).1]

/-- C5: `GetRequestStatus` returns an error if and only if the store's
`GetRequestByID` fails, or the stored status is `successful` and
`GetKeysByRequestID` fails.  In both cases the response is nil and the error is
the store's own error; when `GetRequestByID` fails it is the only store call
made, so `GetKeysByRequestID` is never called. -/
theorem C5_status_errors (s : ValidatorService σ) (id : String) (w : World σ) :
    ((s.GetRequestStatus id w).1.2 ≠ none
        ↔ (∃ e, (s.repo.GetRequestByID w.store id).1 = Except.error e)
          ∨ (∃ request e, (s.repo.GetRequestByID w.store id).1 = Except.ok request
              ∧ request.Status = StatusSuccessful
              ∧ (s.repo.GetKeysByRequestID (s.repo.GetRequestByID w.store id).2 id).1
                  = Except.error e))
      ∧ (∀ e, (s.repo.GetRequestByID w.store id).1 = Except.error e →
          (s.GetRequestStatus id w).1 = (none, some e)
            ∧ storeCalls (newEvents w (s.GetRequestStatus id w).2) = [Call.GetRequestByID id])
      ∧ (∀ request e, (s.repo.GetRequestByID w.store id).1 = Except.ok request →
          request.Status = StatusSuccessful →
          (s.repo.GetKeysByRequestID (s.repo.GetRequestByID w.store id).2 id).1
              = Except.error e →
          (s.GetRequestStatus id w).1 = (none, some e)) := by
  refine ⟨?_, ?_, ?_⟩
  · cases hg : (s.repo.GetRequestByID w.store id).1 with
    | error e =>
      rw [(GetRequestStatus_not_found s id w e hg).1]
      simp
    | ok request =>
      by_cases hs : request.Status = StatusSuccessful
      · cases hk : (s.repo.GetKeysByRequestID (s.repo.GetRequestByID w.store id).2 id).1 with
        | error e =>
          rw [(GetRequestStatus_keys_error s id w request e hg hs hk).1]
          simp [hs]
        | ok keys =>
          rw [(GetRequestStatus_keys_ok s id w request keys hg hs hk).1]
          simp
      · rw [(GetRequestStatus_not_successful s id w request hg hs).1]
        simp [hs]
  · intro e hg
    obtain ⟨hres, hev, -⟩ := GetRequestStatus_not_found s id w e hg
    rw [newEvents_append _ _ _ hev]
    exact ⟨hres, by simp [storeCalls]⟩
  · intro request e hg hs hk
    exact (GetRequestStatus_keys_error s id w request e hg hs hk).1

/-- The two error cases of C5 on concrete stores: an unknown request, and a
successful request whose keys cannot be read. -/
theorem C5_status_errors_witness :
    (failingService.GetRequestStatus "non-existent-id" emptyWorld).1
        = (none, some ⟨"request not found"⟩)
      ∧ storeCalls (newEvents emptyWorld
          (failingService.GetRequestStatus "non-existent-id" emptyWorld).2)
          = [Call.GetRequestByID "non-existent-id"]
      ∧ (keysFailingService.GetRequestStatus "req-1" emptyWorld).1
          = (none, some ⟨"database error"⟩) :=
  ⟨((C5_status_errors failingService "non-existent-id" emptyWorld).2.1
      ⟨"request not found"⟩ rfl).1,
    ((C5_status_errors failingService "non-existent-id" emptyWorld).2.1
      ⟨"request not found"⟩ rfl).2,
    (C5_status_errors keysFailingService "req-1" emptyWorld).2.2
      (testRequest StatusSuccessful "") ⟨"database error"⟩ rfl (by decide) rfl⟩

/-- C6: when the stored status is `successful` and the key read succeeds,
`GetRequestStatus` returns no error and a response with status `successful`,
exactly the keys returned by the store's `GetKeysByRequestID` for that request
id, in the same order, and an empty message, whatever error message the stored
request carries. -/
theorem C6_successful_status_keys (s : ValidatorService σ) (id : String) (w : World σ)
    (request : ValidatorRequest) (keys : List String)
    (hg : (s.repo.GetRequestByID w.store id).1 = Except.ok request)
    (hs : request.Status = StatusSuccessful)
    (hk : (s.repo.GetKeysByRequestID (s.repo.GetRequestByID w.store id).2 id).1
        = Except.ok keys) :
    (s.GetRequestStatus id w).1 = (some ⟨StatusSuccessful, keys, ""⟩, none)
      ∧ storeCalls (newEvents w (s.GetRequestStatus id w).2)
          = [Call.GetRequestByID id, Call.GetKeysByRequestID id] := by
  obtain ⟨hres, hev, -⟩ := GetRequestStatus_keys_ok s id w request keys hg hs hk
  rw [newEvents_append _ _ _ hev]
  exact ⟨hres, by simp [storeCalls]⟩

theorem C6_successful_status_keys_witness :
    ((readService StatusSuccessful "stale error" ["key1", "key2"]).GetRequestStatus "req-1"
        emptyWorld).1 = (some ⟨StatusSuccessful, ["key1", "key2"], ""⟩, none)
      ∧ storeCalls (newEvents emptyWorld
          ((readService StatusSuccessful "stale error" ["key1", "key2"]).GetRequestStatus "req-1"
            emptyWorld).2) = [Call.GetRequestByID "req-1", Call.GetKeysByRequestID "req-1"] :=
  C6_successful_status_keys (readService StatusSuccessful "stale error" ["key1", "key2"]) "req-1"
    emptyWorld (testRequest StatusSuccessful "stale error") ["key1", "key2"] rfl (by decide) rfl

/-- C7: when the stored status is `failed`, `GetRequestStatus` returns no error
and a response with status `failed`, the stored error message and no keys; its
only store call is `GetRequestByID`, so the key store is not queried and keys
saved before the failure are not returned. -/
theorem C7_failed_status_message (s : ValidatorService σ) (id : String) (w : World σ)
    (request : ValidatorRequest)
    (hg : (s.repo.GetRequestByID w.store id).1 = Except.ok request)
    (hs : request.Status = StatusFailed) :
    (s.GetRequestStatus id w).1 = (some ⟨StatusFailed, [], request.ErrorMessage⟩, none)
      ∧ storeCalls (newEvents w (s.GetRequestStatus id w).2) = [Call.GetRequestByID id] := by
  have hns : request.Status ≠ StatusSuccessful := by
    rw [hs]; exact status_failed_ne_successful
  obtain ⟨hres, hev, -⟩ := GetRequestStatus_not_successful s id w request hg hns
  rw [newEvents_append _ _ _ hev, hres]
  simp [hs, storeCalls]

theorem C7_failed_status_message_witness :
    ((readService StatusFailed "Test error message" ["key1"]).GetRequestStatus "req-1"
        emptyWorld).1 = (some ⟨StatusFailed, [], "Test error message"⟩, none)
      ∧ storeCalls (newEvents emptyWorld
          ((readService StatusFailed "Test error message" ["key1"]).GetRequestStatus "req-1"
            emptyWorld).2) = [Call.GetRequestByID "req-1"] :=
  C7_failed_status_message (readService StatusFailed "Test error message" ["key1"]) "req-1"
    emptyWorld (testRequest StatusFailed "Test error message") rfl (by decide)

/-- C8: for a stored request, the response of `GetRequestStatus` has non-empty
keys only if the stored status is `successful` and a non-empty message only if
the stored status is `failed`, so no response carries both keys and a message;
a `started` request yields no error and a response with the status only. -/
theorem C8_keys_and_message_exclusive (s : ValidatorService σ) (id : String) (w : World σ)
    (request : ValidatorRequest)
    (hg : (s.repo.GetRequestByID w.store id).1 = Except.ok request) :
    (∀ response, (s.GetRequestStatus id w).1.1 = some response →
        (response.Keys ≠ [] → request.Status = StatusSuccessful)
          ∧ (response.Message ≠ "" → request.Status = StatusFailed)
          ∧ ¬ (response.Keys ≠ [] ∧ response.Message ≠ ""))
      ∧ (request.Status = StatusStarted →
          (s.GetRequestStatus id w).1 = (some ⟨StatusStarted, [], ""⟩, none)) := by
  constructor
  · intro response hresp
    by_cases hs : request.Status = StatusSuccessful
    · cases hk : (s.repo.GetKeysByRequestID (s.repo.GetRequestByID w.store id).2 id).1 with
      | error e =>
        rw [(GetRequestStatus_keys_error s id w request e hg hs hk).1] at hresp
        simp at hresp
      | ok keys =>
        rw [(GetRequestStatus_keys_ok s id w request keys hg hs hk).1] at hresp
        simp only [Option.some.injEq] at hresp
        subst hresp
        simp [hs]
    · rw [(GetRequestStatus_not_successful s id w request hg hs).1] at hresp
      simp only [Option.some.injEq] at hresp
      subst hresp
      by_cases hf : request.Status = StatusFailed <;> simp [hf]
  · intro hst
    have hns : request.Status ≠ StatusSuccessful := by
      rw [hst]; exact status_started_ne_successful
    rw [(GetRequestStatus_not_successful s id w request hg hns).1, hst]
    simp [status_started_ne_failed]

/-- A `started` request whose row carries a stale message, in a store that
holds a key for it: the response has the status only. -/
theorem C8_keys_and_message_exclusive_witness :
    ((readService StatusStarted "stale" ["key1"]).GetRequestStatus "req-1" emptyWorld).1
      = (some ⟨StatusStarted, [], ""⟩, none) :=
  (C8_keys_and_message_exclusive (readService StatusStarted "stale" ["key1"]) "req-1" emptyWorld
    (testRequest StatusStarted "stale") rfl).2 (by decide)

/-- C9: `GetRequestStatus` invokes only the read operations `GetRequestByID`
and `GetKeysByRequestID`, for the request id it was given, and its result
depends on the world only through the store: a call in any world with the same
store returns the identical result.  On a store whose read operations leave its
state as it is, the store is unchanged by the call, and a second, consecutive
call with the same id returns the identical result. -/
theorem C9_status_read_only (s : ValidatorService σ) (id : String) (w : World σ) :
    (∀ c ∈ storeCalls (newEvents w (s.GetRequestStatus id w).2),
        c = Call.GetRequestByID id ∨ c = Call.GetKeysByRequestID id)
      ∧ (∀ w2 : World σ, w2.store = w.store →
          (s.GetRequestStatus id w2).1 = (s.GetRequestStatus id w).1)
      ∧ ((∀ st i, (s.repo.GetRequestByID st i).2 = st
            ∧ (s.repo.GetKeysByRequestID st i).2 = st) →
          (s.GetRequestStatus id w).2.store = w.store
            ∧ (s.GetRequestStatus id (s.GetRequestStatus id w).2).1
                = (s.GetRequestStatus id w).1) := by
  have hcs : (∀ c ∈ storeCalls (newEvents w (s.GetRequestStatus id w).2),
        c = Call.GetRequestByID id ∨ c = Call.GetKeysByRequestID id)
      ∧ ((∀ st i, (s.repo.GetRequestByID st i).2 = st
            ∧ (s.repo.GetKeysByRequestID st i).2 = st) →
          (s.GetRequestStatus id w).2.store = w.store) := by
    cases hg : (s.repo.GetRequestByID w.store id).1 with
    | error e =>
      obtain ⟨-, hev, hst⟩ := GetRequestStatus_not_found s id w e hg
      rw [newEvents_append _ _ _ hev, hst]
      exact ⟨by simp [storeCalls], fun hread => (hread _ _).1⟩
    | ok request =>
      by_cases hs : request.Status = StatusSuccessful
      · cases hk : (s.repo.GetKeysByRequestID (s.repo.GetRequestByID w.store id).2 id).1 with
        | error e =>
          obtain ⟨-, hev, hst⟩ := GetRequestStatus_keys_error s id w request e hg hs hk
          rw [newEvents_append _ _ _ hev, hst]
          exact ⟨by simp [storeCalls], fun hread => by rw [(hread _ _).2, (hread _ _).1]⟩
        | ok keys =>
          obtain ⟨-, hev, hst⟩ := GetRequestStatus_keys_ok s id w request keys hg hs hk
          rw [newEvents_append _ _ _ hev, hst]
          exact ⟨by simp [storeCalls], fun hread => by rw [(hread _ _).2, (hread _ _).1]⟩
      · obtain ⟨-, hev, hst⟩ := GetRequestStatus_not_successful s id w request hg hs
        rw [newEvents_append _ _ _ hev, hst]
        exact ⟨by simp [storeCalls], fun hread => (hread _ _).1⟩
  refine ⟨hcs.1, fun w2 h2 => GetRequestStatus_result_of_store s id w2 w h2, fun hread => ?_⟩
  exact ⟨hcs.2 hread, GetRequestStatus_result_of_store s id _ _ (hcs.2 hread)⟩

/-- Two consecutive status reads of a successful request on a store that is
only read: same store, same result. -/
theorem C9_status_read_only_witness :
    ((readService StatusSuccessful "" ["key1", "key2"]).GetRequestStatus "req-1"
          emptyWorld).2.store = emptyWorld.store
      ∧ ((readService StatusSuccessful "" ["key1", "key2"]).GetRequestStatus "req-1"
          ((readService StatusSuccessful "" ["key1", "key2"]).GetRequestStatus "req-1"
            emptyWorld).2).1
        = ((readService StatusSuccessful "" ["key1", "key2"]).GetRequestStatus "req-1"
            emptyWorld).1 :=
  (C9_status_read_only (readService StatusSuccessful "" ["key1", "key2"]) "req-1"
    emptyWorld).2.2 (fun _ _ => ⟨rfl, rfl⟩)

/-! ### `processValidatorCreation` -/

theorem storeCalls_append (a b : List Event) :
    storeCalls (a ++ b) = storeCalls a ++ storeCalls b := by
  simp [storeCalls, List.filterMap_append]


theorem storeCalls_cons_call (c : Call) (err : Option Error) (es : List Event) :
    storeCalls (Event.call c err :: es) = c :: storeCalls es := by
  simp [storeCalls]

/-- The two outcomes of `generateRandomKey`: an error with the empty key, or a
key with no error; either way one random read is consumed and logged. -/
theorem generateRandomKey_cases (env : Env) (w : World σ) :
    (∃ err, generateRandomKey env w
        = (("", some err), { w with randCtr := w.randCtr + 1
                                    events := w.events ++ [Event.keygen "" (some err)] }))
      ∨ (∃ key, generateRandomKey env w
        = ((key, none), { w with randCtr := w.randCtr + 1
                                 events := w.events ++ [Event.keygen key none] })) := by
  cases hgen : env.randRead w.randCtr with
  | error err => exact Or.inl ⟨err, by simp [generateRandomKey, hgen, emit]⟩
  | ok bytes =>
    exact Or.inr ⟨String.mk (hexEncode (List.ofFn bytes)),
      by simp only [generateRandomKey, hgen, emit]⟩

/-- The events of the loop: it only appends; when it runs to its end it has
made one successful `SaveValidatorKey` call per iteration and no other store
call, and when the function returns from inside it a key generation or a key
save has failed. -/
theorem processLoop_events (env : Env) (s : ValidatorService σ) (requestID feeRecipient : String)
    (n : Nat) (w : World σ) :
    ∃ es, (processLoop env s requestID feeRecipient n w).2.events = w.events ++ es
      ∧ ((processLoop env s requestID feeRecipient n w).1 = true →
          ∃ keys : List ValidatorKey, keys.length = n
            ∧ storeCalls es = keys.map Call.SaveValidatorKey)
      ∧ ((processLoop env s requestID feeRecipient n w).1 = false →
          ∃ ev ∈ es, keyStepFailed ev = true) := by
  induction n generalizing w with
  | zero => exact ⟨[], by simp [processLoop], fun _ => ⟨[], rfl, rfl⟩, by simp [processLoop]⟩
  | succ n ih =>
    rcases generateRandomKey_cases env w with ⟨err, hgen⟩ | ⟨key, hgen⟩
    · cases hu : (s.repo.UpdateRequestStatus w.store requestID StatusFailed
          "Error generating validator keys").1 with
      | none =>
        refine ⟨[Event.keygen "" (some err), Event.log "ERROR" "Failed to generate key",
          Event.call (Call.UpdateRequestStatus requestID StatusFailed
            "Error generating validator keys") none], ?_, ?_, ?_⟩ <;>
          simp [processLoop, hgen, ValidatorService.UpdateRequestStatus, emit, hu, keyStepFailed]
      | some e2 =>
        refine ⟨[Event.keygen "" (some err), Event.log "ERROR" "Failed to generate key",
          Event.call (Call.UpdateRequestStatus requestID StatusFailed
            "Error generating validator keys") (some e2), Event.tasksTotalInc "failed",
          Event.log "ERROR" "Failed to update request status"], ?_, ?_, ?_⟩ <;>
          simp [processLoop, hgen, ValidatorService.UpdateRequestStatus, emit, hu, keyStepFailed]
    · cases hsv : (s.repo.SaveValidatorKey w.store
          { ID := uuidString (uuidOfRandom (env.uuidBytes w.uuidCtr)), RequestID := requestID
            Key := key, FeeRecipient := feeRecipient }).1 with
      | some e =>
        cases hu : (s.repo.UpdateRequestStatus (s.repo.SaveValidatorKey w.store
            { ID := uuidString (uuidOfRandom (env.uuidBytes w.uuidCtr)), RequestID := requestID
              Key := key, FeeRecipient := feeRecipient }).2
            requestID StatusFailed "Error saving validator keys").1 with
        | none =>
          refine ⟨[Event.keygen key none,
            Event.call (Call.SaveValidatorKey
              { ID := uuidString (uuidOfRandom (env.uuidBytes w.uuidCtr)), RequestID := requestID
                Key := key, FeeRecipient := feeRecipient }) (some e),
            Event.log "ERROR" "Failed to save validator key",
            Event.call (Call.UpdateRequestStatus requestID StatusFailed
              "Error saving validator keys") none], ?_, ?_, ?_⟩ <;>
            simp [processLoop, hgen, ValidatorService.UpdateRequestStatus,
              ValidatorService.SaveValidatorKey, uuidNewString, emit, hsv, hu, keyStepFailed]
        | some e2 =>
          refine ⟨[Event.keygen key none,
            Event.call (Call.SaveValidatorKey
              { ID := uuidString (uuidOfRandom (env.uuidBytes w.uuidCtr)), RequestID := requestID
                Key := key, FeeRecipient := feeRecipient }) (some e),
            Event.log "ERROR" "Failed to save validator key",
            Event.call (Call.UpdateRequestStatus requestID StatusFailed
              "Error saving validator keys") (some e2),
            Event.tasksTotalInc "failed",
            Event.log "ERROR" "Failed to update request status"], ?_, ?_, ?_⟩ <;>
            simp [processLoop, hgen, ValidatorService.UpdateRequestStatus,
              ValidatorService.SaveValidatorKey, uuidNewString, emit, hsv, hu, keyStepFailed]
      | none =>
        have hstep : processLoop env s requestID feeRecipient (n + 1) w
            = processLoop env s requestID feeRecipient n
                { store := (s.repo.SaveValidatorKey w.store
                    { ID := uuidString (uuidOfRandom (env.uuidBytes w.uuidCtr))
                      RequestID := requestID, Key := key, FeeRecipient := feeRecipient }).2
                  events := w.events ++
                    [Event.keygen key none,
                      Event.call (Call.SaveValidatorKey
                        { ID := uuidString (uuidOfRandom (env.uuidBytes w.uuidCtr))
                          RequestID := requestID, Key := key, FeeRecipient := feeRecipient }) none,
                      Event.log "INFO" "Generated validator key"]
                  uuidCtr := w.uuidCtr + 1
                  randCtr := w.randCtr + 1
                  clock := w.clock } := by
          simp [processLoop, hgen, ValidatorService.SaveValidatorKey, uuidNewString, emit, hsv]
        rw [hstep]
        obtain ⟨es, hes, ht, hf⟩ := ih
          { store := (s.repo.SaveValidatorKey w.store
              { ID := uuidString (uuidOfRandom (env.uuidBytes w.uuidCtr))
                RequestID := requestID, Key := key, FeeRecipient := feeRecipient }).2
            events := w.events ++
              [Event.keygen key none,
                Event.call (Call.SaveValidatorKey
                  { ID := uuidString (uuidOfRandom (env.uuidBytes w.uuidCtr))
                    RequestID := requestID, Key := key, FeeRecipient := feeRecipient }) none,
                Event.log "INFO" "Generated validator key"]
            uuidCtr := w.uuidCtr + 1
            randCtr := w.randCtr + 1
            clock := w.clock }
        refine ⟨[Event.keygen key none,
            Event.call (Call.SaveValidatorKey
              { ID := uuidString (uuidOfRandom (env.uuidBytes w.uuidCtr))
                RequestID := requestID, Key := key, FeeRecipient := feeRecipient }) none,
            Event.log "INFO" "Generated validator key"] ++ es, ?_, ?_, ?_⟩
        · rw [hes]; simp
        · intro h
          obtain ⟨keys, hl, hc⟩ := ht h
          refine ⟨{ ID := uuidString (uuidOfRandom (env.uuidBytes w.uuidCtr))
                    RequestID := requestID, Key := key, FeeRecipient := feeRecipient } :: keys,
            by simp [hl], ?_⟩
          rw [storeCalls_append, hc]
          simp [storeCalls]
        · intro h
          obtain ⟨ev, hmem, hev⟩ := hf h
          exact ⟨ev, List.mem_append_right _ hmem, hev⟩

/-- The events of a run of `processValidatorCreation`: the prelude, the events
of the loop, and, unless the function returned from inside the loop, the final
status write followed by events that are not store calls. -/
theorem processValidatorCreation_events (env : Env) (s : ValidatorService σ)
    (requestID : String) (numValidators : Int) (feeRecipient : String) (w : World σ) :
    ∃ es tail,
      (s.processValidatorCreation env requestID numValidators feeRecipient w).events
          = w.events ++ ([Event.log "INFO" "Starting validator creation process",
              Event.tasksTotalInc "started"] ++ es ++ tail)
        ∧ (((∃ ev ∈ es, keyStepFailed ev = true) ∧ tail = [])
          ∨ ((∃ keys : List ValidatorKey, keys.length = numValidators.toNat
                ∧ storeCalls es = keys.map Call.SaveValidatorKey)
              ∧ ∃ err rest, tail
                  = Event.call (Call.UpdateRequestStatus requestID StatusSuccessful "") err :: rest
                ∧ storeCalls rest = [])) := by
  have hloop := processLoop_events env s requestID feeRecipient numValidators.toNat
    (emit (Event.tasksTotalInc "started")
      (timeNow env (emit (Event.log "INFO" "Starting validator creation process") w)).2)
  simp only [ValidatorService.processValidatorCreation]
  generalize processLoop env s requestID feeRecipient numValidators.toNat
    (emit (Event.tasksTotalInc "started")
      (timeNow env (emit (Event.log "INFO" "Starting validator creation process") w)).2) = L
    at hloop ⊢
  obtain ⟨es, hes, ht, hf⟩ := hloop
  have hes2 : L.2.events = w.events ++ ([Event.log "INFO" "Starting validator creation process",
      Event.tasksTotalInc "started"] ++ es) := by
    rw [hes]; simp [emit, timeNow]
  cases hl : L.1 with
  | false =>
    refine ⟨es, [], ?_, Or.inl ⟨hf hl, rfl⟩⟩
    simp [hes2]
  | true =>
    cases hu : (s.repo.UpdateRequestStatus L.2.store requestID StatusSuccessful "").1 with
    | none =>
      refine ⟨es, [Event.call (Call.UpdateRequestStatus requestID StatusSuccessful "") none,
        Event.log "INFO" "Validator creation completed successfully",
        Event.tasksTotalInc "successful",
        Event.taskDurationObserve (env.now (L.2.clock + 1) - env.now w.clock)], ?_,
        Or.inr ⟨ht hl, none, _, rfl, by simp [storeCalls]⟩⟩
      simp [ValidatorService.UpdateRequestStatus, hu, emit, timeNow, hes2]
    | some e =>
      refine ⟨es, [Event.call (Call.UpdateRequestStatus requestID StatusSuccessful "") (some e),
        Event.log "ERROR" "Failed to update request status",
        Event.tasksTotalInc "failed",
        Event.taskDurationObserve (env.now L.2.clock - env.now w.clock)], ?_,
        Or.inr ⟨ht hl, some e, _, rfl, by simp [storeCalls]⟩⟩
      simp [ValidatorService.UpdateRequestStatus, hu, emit, timeNow, hes2]

/-- C10: for `numValidators >= 0`, if in a run of `processValidatorCreation`
every key generation and every `SaveValidatorKey` call succeeds, the store
calls of the run are exactly `numValidators` calls of `SaveValidatorKey`
followed by one call `UpdateRequestStatus(requestID, successful, "")`. -/
theorem C10_success_saves_then_status (env : Env) (s : ValidatorService σ)
    (requestID : String) (numValidators : Int) (feeRecipient : String) (w : World σ)
    (hn : 0 ≤ numValidators)
    (hok : ∀ ev ∈ newEvents w
        (s.processValidatorCreation env requestID numValidators feeRecipient w),
      keyStepFailed ev = false) :
    ∃ keys : List ValidatorKey, (keys.length : Int) = numValidators
      ∧ storeCalls (newEvents w
          (s.processValidatorCreation env requestID numValidators feeRecipient w))
        = keys.map Call.SaveValidatorKey
          ++ [Call.UpdateRequestStatus requestID StatusSuccessful ""] := by
  obtain ⟨es, tail, hev, h⟩ :=
    processValidatorCreation_events env s requestID numValidators feeRecipient w
  have hnew := newEvents_append _ _ _ hev
  rw [hnew] at hok ⊢
  rcases h with ⟨⟨ev, hmem, hfail⟩, -⟩ | ⟨⟨keys, hlen, hcalls⟩, err, rest, htail, hrest⟩
  · have := hok ev (by simp [hmem])
    rw [this] at hfail
    exact absurd hfail (by decide)
  · refine ⟨keys, by rw [hlen]; exact Int.toNat_of_nonneg hn, ?_⟩
    rw [storeCalls_append, storeCalls_append, hcalls, htail, storeCalls_cons_call, hrest]
    simp [storeCalls]

/-- The run of the test "successful key generation": two validators on a
store where every call succeeds. -/
theorem C10_success_saves_then_status_witness :
    ∃ keys : List ValidatorKey, (keys.length : Int) = 2
      ∧ storeCalls (newEvents emptyWorld
          (okService.processValidatorCreation testEnv "req-1" 2 testAddress emptyWorld))
        = keys.map Call.SaveValidatorKey
          ++ [Call.UpdateRequestStatus "req-1" StatusSuccessful ""] :=
  C10_success_saves_then_status testEnv okService "req-1" 2 testAddress emptyWorld (by decide)
    (by decide)

/-! ### The shape of a run -/

theorem replayStore_append (repo : RequestRepo σ) (a b : List Event) (st : σ) :
    replayStore repo (a ++ b) st = replayStore repo b (replayStore repo a st) := by
  induction a generalizing st with
  | nil => rfl
  | cons e es ih => cases e <;> simp [replayStore, ih]

theorem consistent_append (repo : RequestRepo σ) (a b : List Event) (st : σ) :
    Consistent repo (a ++ b) st
      ↔ Consistent repo a st ∧ Consistent repo b (replayStore repo a st) := by
  induction a generalizing st with
  | nil => simp [Consistent, replayStore]
  | cons e es ih => cases e <;> simp [Consistent, replayStore, ih, and_assoc]

/-- The loop of `processValidatorCreation`, as a whole: some iterations that
succeed, each saving a key tagged with the request id and the fee recipient,
then either the end of the loop, or an iteration in which key generation fails,
or one in which the save fails.  The store at the end is the store the calls
lead to, and every call is recorded with the error it returned. -/
theorem processLoop_shape (env : Env) (s : ValidatorService σ) (requestID feeRecipient : String)
    (n : Nat) (w : World σ) :
    ∃ (keys : List ValidatorKey) (tail : List Event),
      (processLoop env s requestID feeRecipient n w).2.events
          = w.events ++ (okIterations keys ++ tail)
        ∧ (∀ k ∈ keys, k.RequestID = requestID ∧ k.FeeRecipient = feeRecipient)
        ∧ (processLoop env s requestID feeRecipient n w).2.store
            = replayStore s.repo (okIterations keys ++ tail) w.store
        ∧ Consistent s.repo (okIterations keys ++ tail) w.store
        ∧ (processLoop env s requestID feeRecipient n w).2.clock = w.clock
        ∧ (((processLoop env s requestID feeRecipient n w).1 = true
              ∧ keys.length = n ∧ tail = [])
          ∨ ((processLoop env s requestID feeRecipient n w).1 = false
              ∧ keys.length < n ∧ ∃ e uerr, tail = genFailure requestID e uerr)
          ∨ ((processLoop env s requestID feeRecipient n w).1 = false
              ∧ keys.length < n
              ∧ ∃ key e uerr, key.RequestID = requestID ∧ key.FeeRecipient = feeRecipient
                  ∧ tail = saveFailure requestID key e uerr)) := by
  induction n generalizing w with
  | zero =>
    exact ⟨[], [], by simp [processLoop, okIterations], by simp, by simp [processLoop,
      okIterations, replayStore], by simp [okIterations, Consistent], by simp [processLoop],
      Or.inl ⟨by simp [processLoop], rfl, rfl⟩⟩
  | succ n ih =>
    rcases generateRandomKey_cases env w with ⟨err, hgen⟩ | ⟨key, hgen⟩
    · cases hu : (s.repo.UpdateRequestStatus w.store requestID StatusFailed
          "Error generating validator keys").1 with
      | none =>
        refine ⟨[], genFailure requestID err none, ?_, ?_, ?_, ?_, ?_,
          Or.inr (Or.inl ⟨?_, ?_, err, none, rfl⟩)⟩ <;>
          simp [processLoop, hgen, ValidatorService.UpdateRequestStatus, emit, hu, okIterations,
            genFailure, afterFailedWrite, replayStore, Consistent, applyCall]
      | some e2 =>
        refine ⟨[], genFailure requestID err (some e2), ?_, ?_, ?_, ?_, ?_,
          Or.inr (Or.inl ⟨?_, ?_, err, some e2, rfl⟩)⟩ <;>
          simp [processLoop, hgen, ValidatorService.UpdateRequestStatus, emit, hu, okIterations,
            genFailure, afterFailedWrite, replayStore, Consistent, applyCall]
    · generalize hvk : ({ ID := uuidString (uuidOfRandom (env.uuidBytes w.uuidCtr))
                          RequestID := requestID, Key := key
                          FeeRecipient := feeRecipient } : ValidatorKey) = vk
      have hvr : vk.RequestID = requestID := by rw [← hvk]
      have hvf : vk.FeeRecipient = feeRecipient := by rw [← hvk]
      have hvkey : vk.Key = key := by rw [← hvk]
      cases hsv : (s.repo.SaveValidatorKey w.store vk).1 with
      | some e =>
        cases hu : (s.repo.UpdateRequestStatus (s.repo.SaveValidatorKey w.store vk).2
            requestID StatusFailed "Error saving validator keys").1 with
        | none =>
          refine ⟨[], saveFailure requestID vk e none, ?_, ?_, ?_, ?_, ?_,
            Or.inr (Or.inr ⟨?_, ?_, vk, e, none, hvr, hvf, rfl⟩)⟩ <;>
            simp [processLoop, hgen, ValidatorService.UpdateRequestStatus,
              ValidatorService.SaveValidatorKey, uuidNewString, emit, hvk, hsv, hu, okIterations,
              saveFailure, afterFailedWrite, replayStore, Consistent, applyCall, hvkey]
        | some e2 =>
          refine ⟨[], saveFailure requestID vk e (some e2), ?_, ?_, ?_, ?_, ?_,
            Or.inr (Or.inr ⟨?_, ?_, vk, e, some e2, hvr, hvf, rfl⟩)⟩ <;>
            simp [processLoop, hgen, ValidatorService.UpdateRequestStatus,
              ValidatorService.SaveValidatorKey, uuidNewString, emit, hvk, hsv, hu, okIterations,
              saveFailure, afterFailedWrite, replayStore, Consistent, applyCall, hvkey]
      | none =>
        have hstep : processLoop env s requestID feeRecipient (n + 1) w
            = processLoop env s requestID feeRecipient n
                { store := (s.repo.SaveValidatorKey w.store vk).2
                  events := w.events ++ okIteration vk
                  uuidCtr := w.uuidCtr + 1
                  randCtr := w.randCtr + 1
                  clock := w.clock } := by
          simp [processLoop, hgen, ValidatorService.SaveValidatorKey, uuidNewString, emit, hvk,
            hsv, okIteration, hvkey]
        rw [hstep]
        obtain ⟨keys, tail, hev, hkeys, hst, hcons, hclk, hshape⟩ := ih
          { store := (s.repo.SaveValidatorKey w.store vk).2
            events := w.events ++ okIteration vk
            uuidCtr := w.uuidCtr + 1
            randCtr := w.randCtr + 1
            clock := w.clock }
        refine ⟨vk :: keys, tail, ?_, ?_, ?_, ?_, hclk, ?_⟩
        · rw [hev]; simp [okIterations]
        · intro k hk
          rcases List.mem_cons.mp hk with rfl | hk
          · exact ⟨hvr, hvf⟩
          · exact hkeys k hk
        · rw [hst]
          simp [okIterations, okIteration, replayStore, applyCall]
        · simp only [okIterations, okIteration, List.cons_append, List.nil_append, Consistent,
            applyCall, replayStore, hsv, true_and]
          exact hcons
        · rcases hshape with ⟨h1, h2, h3⟩ | ⟨h1, h2, h3⟩ | ⟨h1, h2, h3⟩
          · exact Or.inl ⟨h1, by simp [h2], h3⟩
          · exact Or.inr (Or.inl ⟨h1, by simp [h2], h3⟩)
          · exact Or.inr (Or.inr ⟨h1, by simp [h2], h3⟩)

/-- A run of `processValidatorCreation`, as a whole: the prelude, some
successful iterations, and then one of three endings: the loop ran to its end
and the status `successful` is written, or key generation failed, or a save
failed, and the status `failed` is written. -/
theorem processValidatorCreation_shape (env : Env) (s : ValidatorService σ)
    (requestID : String) (numValidators : Int) (feeRecipient : String) (w : World σ) :
    ∃ (keys : List ValidatorKey) (tail : List Event),
      (s.processValidatorCreation env requestID numValidators feeRecipient w).events
          = w.events ++ ([Event.log "INFO" "Starting validator creation process",
              Event.tasksTotalInc "started"] ++ okIterations keys ++ tail)
        ∧ (∀ k ∈ keys, k.RequestID = requestID ∧ k.FeeRecipient = feeRecipient)
        ∧ (s.processValidatorCreation env requestID numValidators feeRecipient w).store
            = replayStore s.repo (okIterations keys ++ tail) w.store
        ∧ Consistent s.repo (okIterations keys ++ tail) w.store
        ∧ ((keys.length = numValidators.toNat
              ∧ ∃ uerr elapsed, tail = finishEvents requestID uerr elapsed)
          ∨ (keys.length < numValidators.toNat
              ∧ ∃ e uerr, tail = genFailure requestID e uerr)
          ∨ (keys.length < numValidators.toNat
              ∧ ∃ key e uerr, key.RequestID = requestID ∧ key.FeeRecipient = feeRecipient
                  ∧ tail = saveFailure requestID key e uerr)) := by
  have hloop := processLoop_shape env s requestID feeRecipient numValidators.toNat
    (emit (Event.tasksTotalInc "started")
      (timeNow env (emit (Event.log "INFO" "Starting validator creation process") w)).2)
  simp only [ValidatorService.processValidatorCreation]
  generalize processLoop env s requestID feeRecipient numValidators.toNat
    (emit (Event.tasksTotalInc "started")
      (timeNow env (emit (Event.log "INFO" "Starting validator creation process") w)).2) = L
    at hloop ⊢
  obtain ⟨keys, tail, hev, hkeys, hst, hcons, -, hshape⟩ := hloop
  have hev2 : L.2.events = w.events ++ ([Event.log "INFO" "Starting validator creation process",
      Event.tasksTotalInc "started"] ++ okIterations keys ++ tail) := by
    rw [hev]; simp [emit, timeNow]
  have hst2 : L.2.store = replayStore s.repo (okIterations keys ++ tail) w.store := by
    rw [hst]; simp [emit, timeNow]
  have hcons2 : Consistent s.repo (okIterations keys ++ tail) w.store := by
    simpa [emit, timeNow] using hcons
  rcases hshape with ⟨hl, hlen, htail⟩ | ⟨hl, hlen, htail⟩ | ⟨hl, hlen, htail⟩
  · subst htail
    simp only [List.append_nil] at hev2 hst2 hcons2
    cases hu : (s.repo.UpdateRequestStatus L.2.store requestID StatusSuccessful "").1 with
    | none =>
      refine ⟨keys, finishEvents requestID none (env.now (L.2.clock + 1) - env.now w.clock),
        ?_, hkeys, ?_, ?_, Or.inl ⟨hlen, none, _, rfl⟩⟩
      · simp [hl, ValidatorService.UpdateRequestStatus, hu, emit, timeNow, hev2, finishEvents]
      · rw [replayStore_append, ← hst2]
        simp [hl, ValidatorService.UpdateRequestStatus, hu, emit, timeNow, finishEvents,
          replayStore, applyCall]
      · rw [consistent_append, ← hst2]
        exact ⟨hcons2, by simp [finishEvents, Consistent, applyCall, hu]⟩
    | some e =>
      refine ⟨keys, finishEvents requestID (some e) (env.now L.2.clock - env.now w.clock),
        ?_, hkeys, ?_, ?_, Or.inl ⟨hlen, some e, _, rfl⟩⟩
      · simp [hl, ValidatorService.UpdateRequestStatus, hu, emit, timeNow, hev2, finishEvents]
      · rw [replayStore_append, ← hst2]
        simp [hl, ValidatorService.UpdateRequestStatus, hu, emit, timeNow, finishEvents,
          replayStore, applyCall]
      · rw [consistent_append, ← hst2]
        exact ⟨hcons2, by simp [finishEvents, Consistent, applyCall, hu]⟩
  · exact ⟨keys, tail, by simp [hl, hev2], hkeys, by simp [hl, hst2], hcons2,
      Or.inr (Or.inl ⟨hlen, htail⟩)⟩
  · exact ⟨keys, tail, by simp [hl, hev2], hkeys, by simp [hl, hst2], hcons2,
      Or.inr (Or.inr ⟨hlen, htail⟩)⟩

theorem keySteps_append (a b : List Event) : keySteps (a ++ b) = keySteps a ++ keySteps b := by
  simp [keySteps]

theorem taskCounts_append (a b : List Event) :
    taskCounts (a ++ b) = taskCounts a ++ taskCounts b := by
  simp [taskCounts, List.filterMap_append]

theorem durations_append (a b : List Event) :
    durations (a ++ b) = durations a ++ durations b := by
  simp [durations, List.filterMap_append]

theorem keySteps_okIterations (keys : List ValidatorKey) :
    keySteps (okIterations keys) = okSteps keys := by
  induction keys with
  | nil => rfl
  | cons k ks ih =>
    rw [okIterations, keySteps_append, ih]
    simp [keySteps, okIteration, okSteps]

theorem storeCalls_okIterations (keys : List ValidatorKey) :
    storeCalls (okIterations keys) = keys.map Call.SaveValidatorKey := by
  induction keys with
  | nil => rfl
  | cons k ks ih =>
    rw [okIterations, storeCalls_append, ih]
    simp [storeCalls, okIteration]

theorem taskCounts_okIterations (keys : List ValidatorKey) :
    taskCounts (okIterations keys) = [] := by
  induction keys with
  | nil => rfl
  | cons k ks ih =>
    rw [okIterations, taskCounts_append, ih]
    simp [taskCounts, okIteration]

theorem durations_okIterations (keys : List ValidatorKey) :
    durations (okIterations keys) = [] := by
  induction keys with
  | nil => rfl
  | cons k ks ih =>
    rw [okIterations, durations_append, ih]
    simp [durations, okIteration]

theorem mem_okIterations (keys : List ValidatorKey) (ev : Event) (h : ev ∈ okIterations keys) :
    ∃ k ∈ keys, ev ∈ okIteration k := by
  induction keys with
  | nil => simp [okIterations] at h
  | cons k ks ih =>
    rw [okIterations, List.mem_append] at h
    rcases h with h | h
    · exact ⟨k, by simp, h⟩
    · obtain ⟨k2, hk2, hev⟩ := ih h
      exact ⟨k2, by simp [hk2], hev⟩

theorem keyStepFailed_okIterations (keys : List ValidatorKey) (ev : Event)
    (h : ev ∈ okIterations keys) : keyStepFailed ev = false := by
  obtain ⟨k, -, hev⟩ := mem_okIterations keys ev h
  simp only [okIteration, List.mem_cons, List.mem_singleton, List.not_mem_nil, or_false] at hev
  rcases hev with rfl | rfl | rfl <;> rfl

theorem keyStepFailed_finishEvents (requestID : String) (uerr : Option Error) (elapsed : Int)
    (ev : Event) (h : ev ∈ finishEvents requestID uerr elapsed) : keyStepFailed ev = false := by
  cases uerr <;>
    simp only [finishEvents, List.mem_cons, List.mem_singleton, List.not_mem_nil, or_false] at h <;>
    rcases h with rfl | rfl | rfl | rfl <;> rfl

theorem keySteps_genFailure (requestID : String) (e : Error) (uerr : Option Error) :
    keySteps (genFailure requestID e uerr)
      = [Event.keygen "" (some e),
          Event.call (Call.UpdateRequestStatus requestID StatusFailed
            "Error generating validator keys") uerr] := by
  cases uerr <;> simp [keySteps, genFailure, afterFailedWrite]

theorem keySteps_saveFailure (requestID : String) (key : ValidatorKey) (e : Error)
    (uerr : Option Error) :
    keySteps (saveFailure requestID key e uerr)
      = [Event.keygen key.Key none, Event.call (Call.SaveValidatorKey key) (some e),
          Event.call (Call.UpdateRequestStatus requestID StatusFailed
            "Error saving validator keys") uerr] := by
  cases uerr <;> simp [keySteps, saveFailure, afterFailedWrite]

theorem keySteps_finishEvents (requestID : String) (uerr : Option Error) (elapsed : Int) :
    keySteps (finishEvents requestID uerr elapsed)
      = [Event.call (Call.UpdateRequestStatus requestID StatusSuccessful "") uerr] := by
  cases uerr <;> simp [keySteps, finishEvents]

theorem storeCalls_genFailure (requestID : String) (e : Error) (uerr : Option Error) :
    storeCalls (genFailure requestID e uerr)
      = [Call.UpdateRequestStatus requestID StatusFailed "Error generating validator keys"] := by
  cases uerr <;> simp [storeCalls, genFailure, afterFailedWrite]

theorem storeCalls_saveFailure (requestID : String) (key : ValidatorKey) (e : Error)
    (uerr : Option Error) :
    storeCalls (saveFailure requestID key e uerr)
      = [Call.SaveValidatorKey key,
          Call.UpdateRequestStatus requestID StatusFailed "Error saving validator keys"] := by
  cases uerr <;> simp [storeCalls, saveFailure, afterFailedWrite]

theorem storeCalls_finishEvents (requestID : String) (uerr : Option Error) (elapsed : Int) :
    storeCalls (finishEvents requestID uerr elapsed)
      = [Call.UpdateRequestStatus requestID StatusSuccessful ""] := by
  cases uerr <;> simp [storeCalls, finishEvents]

/-- The new events of a run, by the three ways it can end. -/
theorem processValidatorCreation_newEvents (env : Env) (s : ValidatorService σ)
    (requestID : String) (numValidators : Int) (feeRecipient : String) (w : World σ) :
    ∃ (keys : List ValidatorKey) (tail : List Event),
      newEvents w (s.processValidatorCreation env requestID numValidators feeRecipient w)
          = [Event.log "INFO" "Starting validator creation process",
              Event.tasksTotalInc "started"] ++ okIterations keys ++ tail
        ∧ (∀ k ∈ keys, k.RequestID = requestID ∧ k.FeeRecipient = feeRecipient)
        ∧ ((keys.length = numValidators.toNat
              ∧ ∃ uerr elapsed, tail = finishEvents requestID uerr elapsed)
          ∨ (keys.length < numValidators.toNat
              ∧ ∃ e uerr, tail = genFailure requestID e uerr)
          ∨ (keys.length < numValidators.toNat
              ∧ ∃ key e uerr, key.RequestID = requestID ∧ key.FeeRecipient = feeRecipient
                  ∧ tail = saveFailure requestID key e uerr)) := by
  obtain ⟨keys, tail, hev, hkeys, -, -, hshape⟩ :=
    processValidatorCreation_shape env s requestID numValidators feeRecipient w
  exact ⟨keys, tail, newEvents_append _ _ _ hev, hkeys, hshape⟩

/-- C11: if a key generation or a `SaveValidatorKey` call fails in a run of
`processValidatorCreation`, the run stops at that first failure, in an iteration
`k < numValidators`: its key generations and store calls are exactly `k`
successful iterations (a key generated, then saved), followed either by the
failed key generation and one call
`UpdateRequestStatus(requestID, failed, "Error generating validator keys")`, with
no save attempted, or by a key generation, the failed save (the `k+1`-th
`SaveValidatorKey` call) and one call
`UpdateRequestStatus(requestID, failed, "Error saving validator keys")`.  Nothing
follows, and the status `successful` is never written. -/
theorem C11_first_failure_stops_run (env : Env) (s : ValidatorService σ)
    (requestID : String) (numValidators : Int) (feeRecipient : String) (w : World σ)
    (hfail : ∃ ev ∈ newEvents w
        (s.processValidatorCreation env requestID numValidators feeRecipient w),
      keyStepFailed ev = true) :
    ∃ keys : List ValidatorKey, (keys.length : Int) < numValidators
      ∧ ((∃ e uerr, keySteps (newEvents w
              (s.processValidatorCreation env requestID numValidators feeRecipient w))
            = okSteps keys ++ [Event.keygen "" (some e),
                Event.call (Call.UpdateRequestStatus requestID StatusFailed
                  "Error generating validator keys") uerr])
        ∨ (∃ key e uerr, keySteps (newEvents w
              (s.processValidatorCreation env requestID numValidators feeRecipient w))
            = okSteps keys ++ [Event.keygen key.Key none,
                Event.call (Call.SaveValidatorKey key) (some e),
                Event.call (Call.UpdateRequestStatus requestID StatusFailed
                  "Error saving validator keys") uerr]))
      ∧ (∀ id m, Call.UpdateRequestStatus id StatusSuccessful m ∉ storeCalls (newEvents w
          (s.processValidatorCreation env requestID numValidators feeRecipient w))) := by
  obtain ⟨keys, tail, hnew, -, hshape⟩ :=
    processValidatorCreation_newEvents env s requestID numValidators feeRecipient w
  rw [hnew] at hfail ⊢
  have hpre : keySteps [Event.log "INFO" "Starting validator creation process",
      Event.tasksTotalInc "started"] = [] := by simp [keySteps]
  have hpre2 : storeCalls [Event.log "INFO" "Starting validator creation process",
      Event.tasksTotalInc "started"] = [] := by simp [storeCalls]
  rcases hshape with ⟨-, uerr, elapsed, rfl⟩ | ⟨hlen, e, uerr, rfl⟩ | ⟨hlen, key, e, uerr, -, -, rfl⟩
  · obtain ⟨ev, hmem, hev⟩ := hfail
    have hf : keyStepFailed ev = false := by
      rcases List.mem_append.mp hmem with h | h
      · rcases List.mem_append.mp h with h | h
        · simp only [List.mem_cons, List.mem_singleton, List.not_mem_nil, or_false] at h
          rcases h with rfl | rfl <;> rfl
        · exact keyStepFailed_okIterations keys ev h
      · exact keyStepFailed_finishEvents requestID uerr elapsed ev h
    rw [hf] at hev
    exact absurd hev (by decide)
  · refine ⟨keys, Int.lt_toNat.mp hlen, Or.inl ⟨e, uerr, ?_⟩, ?_⟩
    · rw [keySteps_append, keySteps_append, hpre, keySteps_okIterations, keySteps_genFailure]
      rfl
    · intro id m
      rw [storeCalls_append, storeCalls_append, hpre2, storeCalls_okIterations,
        storeCalls_genFailure]
      simp only [List.nil_append, List.mem_append, List.mem_map, reduceCtorEq, and_false,
        exists_false, List.mem_cons, Call.UpdateRequestStatus.injEq, List.mem_singleton,
        List.not_mem_nil, or_false, false_or, not_and]
      intro _ h
      exact absurd h.symm status_failed_ne_successful
  · refine ⟨keys, Int.lt_toNat.mp hlen, Or.inr ⟨key, e, uerr, ?_⟩, ?_⟩
    · rw [keySteps_append, keySteps_append, hpre, keySteps_okIterations, keySteps_saveFailure]
      rfl
    · intro id m
      rw [storeCalls_append, storeCalls_append, hpre2, storeCalls_okIterations,
        storeCalls_saveFailure]
      simp only [List.nil_append, List.mem_append, List.mem_map, reduceCtorEq, and_false,
        exists_false, List.mem_cons, Call.UpdateRequestStatus.injEq, List.mem_singleton,
        List.not_mem_nil, or_false, false_or, not_and]
      intro _ h
      exact absurd h.symm status_failed_ne_successful

/-- Three validators on a store whose second `SaveValidatorKey` fails: the run
stops in iteration 1. -/
theorem C11_first_failure_stops_run_witness :
    ∃ keys : List ValidatorKey, (keys.length : Int) < 3
      ∧ ((∃ e uerr, keySteps (newEvents emptyWorld
              ((⟨mockRepo (saveFailsAt 1)⟩ : ValidatorService Nat).processValidatorCreation
                testEnv "req-1" 3 testAddress emptyWorld))
            = okSteps keys ++ [Event.keygen "" (some e),
                Event.call (Call.UpdateRequestStatus "req-1" StatusFailed
                  "Error generating validator keys") uerr])
        ∨ (∃ key e uerr, keySteps (newEvents emptyWorld
              ((⟨mockRepo (saveFailsAt 1)⟩ : ValidatorService Nat).processValidatorCreation
                testEnv "req-1" 3 testAddress emptyWorld))
            = okSteps keys ++ [Event.keygen key.Key none,
                Event.call (Call.SaveValidatorKey key) (some e),
                Event.call (Call.UpdateRequestStatus "req-1" StatusFailed
                  "Error saving validator keys") uerr]))
      ∧ (∀ id m, Call.UpdateRequestStatus id StatusSuccessful m ∉ storeCalls (newEvents emptyWorld
          ((⟨mockRepo (saveFailsAt 1)⟩ : ValidatorService Nat).processValidatorCreation
            testEnv "req-1" 3 testAddress emptyWorld))) :=
  C11_first_failure_stops_run testEnv ⟨mockRepo (saveFailsAt 1)⟩ "req-1" 3 testAddress
    emptyWorld (by decide)

/-- C12: in every run of `processValidatorCreation`, whatever the outcomes of
key generation and of the store calls, the store calls are some
`SaveValidatorKey` calls followed by exactly one `UpdateRequestStatus` call, the
last store call of the run, with the run's own request id and a terminal status
(`successful` or `failed`, never `started`). -/
theorem C12_one_terminal_status_write (env : Env) (s : ValidatorService σ)
    (requestID : String) (numValidators : Int) (feeRecipient : String) (w : World σ) :
    ∃ (keys : List ValidatorKey) (status : Status) (m : String),
      storeCalls (newEvents w
          (s.processValidatorCreation env requestID numValidators feeRecipient w))
        = keys.map Call.SaveValidatorKey ++ [Call.UpdateRequestStatus requestID status m]
      ∧ (status = StatusSuccessful ∨ status = StatusFailed)
      ∧ status ≠ StatusStarted := by
  obtain ⟨keys, tail, hnew, -, hshape⟩ :=
    processValidatorCreation_newEvents env s requestID numValidators feeRecipient w
  rw [hnew]
  have hpre2 : storeCalls [Event.log "INFO" "Starting validator creation process",
      Event.tasksTotalInc "started"] = [] := by simp [storeCalls]
  rcases hshape with ⟨-, uerr, elapsed, rfl⟩ | ⟨-, e, uerr, rfl⟩ | ⟨-, key, e, uerr, -, -, rfl⟩
  · refine ⟨keys, StatusSuccessful, "", ?_, Or.inl rfl, fun h => status_started_ne_successful h.symm⟩
    rw [storeCalls_append, storeCalls_append, hpre2, storeCalls_okIterations,
      storeCalls_finishEvents]
    rfl
  · refine ⟨keys, StatusFailed, "Error generating validator keys", ?_, Or.inr rfl,
      fun h => status_started_ne_failed h.symm⟩
    rw [storeCalls_append, storeCalls_append, hpre2, storeCalls_okIterations,
      storeCalls_genFailure]
    rfl
  · refine ⟨keys ++ [key], StatusFailed, "Error saving validator keys", ?_, Or.inr rfl,
      fun h => status_started_ne_failed h.symm⟩
    rw [storeCalls_append, storeCalls_append, hpre2, storeCalls_okIterations,
      storeCalls_saveFailure]
    simp

/-! ### Key rows and stored status -/

/-- On a well-behaved store, replaying successful iterations adds to the rows
of each request exactly the keys saved for it, and changes no status. -/
theorem replay_okIterations (repo : RequestRepo σ) (v : StoreView σ) (hwb : WellBehaved repo v)
    (keys : List ValidatorKey) (rest : List Event) (st : σ)
    (hc : Consistent repo (okIterations keys ++ rest) st) :
    (∀ r, v.keyRows (replayStore repo (okIterations keys) st) r
        = v.keyRows st r ++ keys.filter fun k => k.RequestID = r)
      ∧ (∀ r, v.status (replayStore repo (okIterations keys) st) r = v.status st r) := by
  induction keys generalizing st with
  | nil => simp [okIterations, replayStore]
  | cons k ks ih =>
    have h1 : okIterations (k :: ks) ++ rest
        = Event.keygen k.Key none :: Event.call (Call.SaveValidatorKey k) none
            :: Event.log "INFO" "Generated validator key" :: (okIterations ks ++ rest) := by
      simp [okIterations, okIteration]
    have h2 : okIterations (k :: ks)
        = Event.keygen k.Key none :: Event.call (Call.SaveValidatorKey k) none
            :: Event.log "INFO" "Generated validator key" :: okIterations ks := by
      simp [okIterations, okIteration]
    rw [h1] at hc
    rw [h2]
    simp only [Consistent, applyCall, replayStore] at hc ⊢
    obtain ⟨hsave, hrest⟩ := hc
    obtain ⟨hrows, hstat⟩ := ih (repo.SaveValidatorKey st k).2 hrest
    constructor
    · intro r
      rw [hrows r, hwb.1 st k hsave r]
      by_cases hk : k.RequestID = r <;> simp [hk, List.filter_cons]
    · intro r
      rw [hstat r, hwb.2.2.1 st k r]

theorem savedKeys_append (a b : List Event) : savedKeys (a ++ b) = savedKeys a ++ savedKeys b := by
  simp [savedKeys, List.filterMap_append]

theorem savedKeys_okIterations (keys : List ValidatorKey) :
    savedKeys (okIterations keys) = keys := by
  induction keys with
  | nil => rfl
  | cons k ks ih =>
    rw [okIterations, savedKeys_append, ih]
    simp [savedKeys, okIteration]

theorem filter_eq_self_of_all (keys : List ValidatorKey) (r : String)
    (h : ∀ k ∈ keys, k.RequestID = r) : (keys.filter fun k => k.RequestID = r) = keys := by
  rw [List.filter_eq_self]
  intro k hk
  simp [h k hk]

theorem not_mem_okIterations_update (keys : List ValidatorKey) (id : String) (status : Status)
    (m : String) (err : Option Error) :
    Event.call (Call.UpdateRequestStatus id status m) err ∉ okIterations keys := by
  intro h
  obtain ⟨k, -, hev⟩ := mem_okIterations keys _ h
  simp [okIteration] at hev

theorem savedKeys_prelude :
    savedKeys [Event.log "INFO" "Starting validator creation process",
      Event.tasksTotalInc "started"] = [] := by
  simp [savedKeys]

theorem savedKeys_finishEvents (requestID : String) (uerr : Option Error) (elapsed : Int) :
    savedKeys (finishEvents requestID uerr elapsed) = [] := by
  cases uerr <;> simp [savedKeys, finishEvents]

theorem savedKeys_genFailure (requestID : String) (e : Error) (uerr : Option Error) :
    savedKeys (genFailure requestID e uerr) = [] := by
  cases uerr <;> simp [savedKeys, genFailure, afterFailedWrite]

theorem savedKeys_saveFailure (requestID : String) (key : ValidatorKey) (e : Error)
    (uerr : Option Error) : savedKeys (saveFailure requestID key e uerr) = [] := by
  cases uerr <;> simp [savedKeys, saveFailure, afterFailedWrite]

/-- C13, amended: for a request with `n > 0` on a well-behaved store, starting
with status `started` and no key rows, and provided the one status write of its
processing run succeeded: the key rows of the request are exactly the keys the
run saved successfully; their number equals `n` if and only if the stored
status is `successful`; the stored status is `failed` if and only if a key
generation or save failed in the run, and then the key rows, the keys saved
before that failure, are fewer than `n`. -/
theorem C13_rows_match_status (env : Env) (s : ValidatorService σ) (v : StoreView σ)
    (hwb : WellBehaved s.repo v) (requestID : String) (n : Int) (feeRecipient : String)
    (w : World σ) (hn : 0 < n)
    (hstarted : v.status w.store requestID = some StatusStarted)
    (hempty : v.keyRows w.store requestID = [])
    (hwrite : ∃ status m, Event.call (Call.UpdateRequestStatus requestID status m) none
      ∈ newEvents w (s.processValidatorCreation env requestID n feeRecipient w)) :
    v.keyRows (s.processValidatorCreation env requestID n feeRecipient w).store requestID
        = savedKeys (newEvents w (s.processValidatorCreation env requestID n feeRecipient w))
      ∧ (((v.keyRows (s.processValidatorCreation env requestID n feeRecipient w).store
            requestID).length : Int) = n
          ↔ v.status (s.processValidatorCreation env requestID n feeRecipient w).store requestID
              = some StatusSuccessful)
      ∧ (v.status (s.processValidatorCreation env requestID n feeRecipient w).store requestID
            = some StatusFailed
          ↔ ∃ ev ∈ newEvents w (s.processValidatorCreation env requestID n feeRecipient w),
              keyStepFailed ev = true)
      ∧ (v.status (s.processValidatorCreation env requestID n feeRecipient w).store requestID
            = some StatusFailed →
          ((v.keyRows (s.processValidatorCreation env requestID n feeRecipient w).store
            requestID).length : Int) < n) := by
  obtain ⟨keys, tail, hev, hkeys, hstore, hcons, hshape⟩ :=
    processValidatorCreation_shape env s requestID n feeRecipient w
  have hnew := newEvents_append _ _ _ hev
  rw [hnew] at hwrite ⊢
  rw [hstore, replayStore_append]
  obtain ⟨hrows, hstat⟩ := replay_okIterations s.repo v hwb keys tail w.store hcons
  have hrows1 : v.keyRows (replayStore s.repo (okIterations keys) w.store) requestID = keys := by
    rw [hrows, hempty, List.nil_append]
    exact filter_eq_self_of_all keys requestID fun k hk => (hkeys k hk).1
  have hstat1 : v.status (replayStore s.repo (okIterations keys) w.store) requestID
      = some StatusStarted := by rw [hstat, hstarted]
  have hcons1 := ((consistent_append s.repo _ _ _).mp hcons).2
  generalize replayStore s.repo (okIterations keys) w.store = st1 at hrows1 hstat1 hcons1 ⊢
  obtain ⟨status, m, hmem⟩ := hwrite
  have hne : v.status st1 requestID ≠ none := by rw [hstat1]; simp
  rcases hshape with ⟨hlen, uerr, elapsed, rfl⟩ | ⟨hlen, e, uerr, rfl⟩ |
      ⟨hlen, key, e, uerr, -, -, rfl⟩
  · cases uerr with
    | some e2 =>
      exfalso
      simp [finishEvents, not_mem_okIterations_update] at hmem
    | none =>
      simp only [finishEvents, Consistent, applyCall, and_true] at hcons1
      have hfin : replayStore s.repo (finishEvents requestID none elapsed) st1
          = (s.repo.UpdateRequestStatus st1 requestID StatusSuccessful "").2 := by
        simp [finishEvents, replayStore, applyCall]
      rw [hfin, hwb.2.2.2.1, hrows1, hwb.2.2.2.2.1 st1 requestID StatusSuccessful "" hcons1 hne,
        savedKeys_append, savedKeys_append, savedKeys_prelude, savedKeys_okIterations,
        savedKeys_finishEvents]
      refine ⟨by simp, ?_, ?_, ?_⟩
      · simp [hlen, Int.toNat_of_nonneg hn.le]
      · constructor
        · intro h
          exact absurd (Option.some.inj h) (Ne.symm status_failed_ne_successful)
        · rintro ⟨ev, hev, hf⟩
          have hf2 : keyStepFailed ev = false := by
            rcases List.mem_append.mp hev with h | h
            · rcases List.mem_append.mp h with h | h
              · simp only [List.mem_cons, List.mem_singleton, List.not_mem_nil, or_false] at h
                rcases h with rfl | rfl <;> rfl
              · exact keyStepFailed_okIterations keys ev h
            · exact keyStepFailed_finishEvents requestID none elapsed ev h
          rw [hf2] at hf
          exact absurd hf (by decide)
      · intro h
        exact absurd (Option.some.inj h) (Ne.symm status_failed_ne_successful)
  · cases uerr with
    | some e2 =>
      exfalso
      simp [genFailure, afterFailedWrite, not_mem_okIterations_update] at hmem
    | none =>
      simp only [genFailure, afterFailedWrite, List.append_nil, Consistent, applyCall,
        and_true] at hcons1
      have hfin : replayStore s.repo (genFailure requestID e none) st1
          = (s.repo.UpdateRequestStatus st1 requestID StatusFailed
              "Error generating validator keys").2 := by
        simp [genFailure, afterFailedWrite, replayStore, applyCall]
      rw [hfin, hwb.2.2.2.1, hrows1, hwb.2.2.2.2.1 st1 requestID StatusFailed _ hcons1 hne,
        savedKeys_append, savedKeys_append, savedKeys_prelude, savedKeys_okIterations,
        savedKeys_genFailure]
      have hlt : (keys.length : Int) < n := Int.lt_toNat.mp hlen
      refine ⟨by simp, ?_, ?_, fun _ => hlt⟩
      · constructor
        · intro h; omega
        · intro h
          exact absurd (Option.some.inj h) status_failed_ne_successful
      · exact ⟨fun _ => ⟨Event.keygen "" (some e), by simp [genFailure], rfl⟩, fun _ => rfl⟩
  · cases uerr with
    | some e2 =>
      exfalso
      simp [saveFailure, afterFailedWrite, not_mem_okIterations_update] at hmem
    | none =>
      simp only [saveFailure, afterFailedWrite, List.append_nil, Consistent, applyCall,
        and_true] at hcons1
      obtain ⟨hsave, hupd⟩ := hcons1
      have hfin : replayStore s.repo (saveFailure requestID key e none) st1
          = (s.repo.UpdateRequestStatus (s.repo.SaveValidatorKey st1 key).2 requestID
              StatusFailed "Error saving validator keys").2 := by
        simp [saveFailure, afterFailedWrite, replayStore, applyCall]
      have hne2 : v.status (s.repo.SaveValidatorKey st1 key).2 requestID ≠ none := by
        rw [hwb.2.2.1]; exact hne
      rw [hfin, hwb.2.2.2.1, hwb.2.1 st1 key e hsave, hrows1,
        hwb.2.2.2.2.1 _ requestID StatusFailed _ hupd hne2,
        savedKeys_append, savedKeys_append, savedKeys_prelude, savedKeys_okIterations,
        savedKeys_saveFailure]
      have hlt : (keys.length : Int) < n := Int.lt_toNat.mp hlen
      refine ⟨by simp, ?_, ?_, fun _ => hlt⟩
      · constructor
        · intro h; omega
        · intro h
          exact absurd (Option.some.inj h) status_failed_ne_successful
      · exact ⟨fun _ => ⟨Event.call (Call.SaveValidatorKey key) (some e),
          by simp [saveFailure], rfl⟩, fun _ => rfl⟩

/-! ### The SQLite store -/

theorem storedStatus_update (rows : List ValidatorRequest) (id : String) (status : Status)
    (now : Int) (m : String)
    (h : (rows.find? fun r => r.ID = id) ≠ none) :
    ((rows.map fun r =>
        if r.ID = id then { r with Status := status, UpdatedAt := now, ErrorMessage := m }
        else r).find? fun r => r.ID = id).map (fun r => r.Status) = some status := by
  induction rows with
  | nil => simp at h
  | cons r rs ih =>
    by_cases hr : r.ID = id
    · simp [List.find?, hr]
    · have h2 : (rs.find? fun r => r.ID = id) ≠ none := by
        simpa [List.find?, hr] using h
      simpa [List.find?, hr] using ih h2

/-- A `SaveValidatorKey` either succeeds and appends the key as a new row, or
fails and changes no row. -/
theorem SaveValidatorKey_cases (d : Driver) (db : Database) (key : ValidatorKey) :
    ((ValidatorRepository.SaveValidatorKey d db key).1 = none
        ∧ (ValidatorRepository.SaveValidatorKey d db key).2.validator_keys
            = db.validator_keys ++ [key]
        ∧ (ValidatorRepository.SaveValidatorKey d db key).2.validator_requests
            = db.validator_requests)
      ∨ (∃ e, (ValidatorRepository.SaveValidatorKey d db key).1 = some e
        ∧ (ValidatorRepository.SaveValidatorKey d db key).2.validator_keys = db.validator_keys
        ∧ (ValidatorRepository.SaveValidatorKey d db key).2.validator_requests
            = db.validator_requests) := by
  unfold ValidatorRepository.SaveValidatorKey
  simp only []
  split
  · exact Or.inr ⟨_, rfl, rfl, rfl⟩
  · split_ifs
    · exact Or.inr ⟨_, rfl, rfl, rfl⟩
    · exact Or.inr ⟨_, rfl, rfl, rfl⟩
    · exact Or.inl ⟨rfl, rfl, rfl⟩

/-- An `UpdateRequestStatus` either fails in the driver and changes no row, or
returns no error and rewrites the three columns of the rows with the given id. -/
theorem UpdateRequestStatus_cases (d : Driver) (db : Database) (id : String) (status : Status)
    (m : String) :
    ((ValidatorRepository.UpdateRequestStatus d db id status m).1 = none
        ∧ d.fault db.ops = none
        ∧ (ValidatorRepository.UpdateRequestStatus d db id status m).2.validator_keys
            = db.validator_keys
        ∧ (ValidatorRepository.UpdateRequestStatus d db id status m).2.validator_requests
            = db.validator_requests.map fun r =>
                if r.ID = id then
                  { r with Status := status, UpdatedAt := d.now db.clock, ErrorMessage := m }
                else r)
      ∨ (∃ e, (ValidatorRepository.UpdateRequestStatus d db id status m).1 = some e
        ∧ d.fault db.ops = some e
        ∧ (ValidatorRepository.UpdateRequestStatus d db id status m).2.validator_keys
            = db.validator_keys
        ∧ (ValidatorRepository.UpdateRequestStatus d db id status m).2.validator_requests
            = db.validator_requests) := by
  unfold ValidatorRepository.UpdateRequestStatus
  simp only []
  split
  · rename_i err hf
    exact Or.inr ⟨err, rfl, hf, rfl, rfl⟩
  · rename_i hf
    exact Or.inl ⟨rfl, hf, rfl, rfl⟩

/-- The SQLite store is well behaved, whatever the driver does. -/
theorem ValidatorRepository_wellBehaved (d : Driver) :
    WellBehaved (ValidatorRepository d) databaseView := by
  refine ⟨?_, ?_, ?_, ?_, ?_, ?_⟩
  · intro db key hok r
    show selectKeyRows (ValidatorRepository.SaveValidatorKey d db key).2 r
      = if key.RequestID = r then selectKeyRows db r ++ [key] else selectKeyRows db r
    have hok2 : (ValidatorRepository.SaveValidatorKey d db key).1 = none := hok
    rcases SaveValidatorKey_cases d db key with ⟨-, hk, -⟩ | ⟨e, he, -, -⟩
    · by_cases hr : key.RequestID = r <;> simp [selectKeyRows, hk, List.filter_append, hr]
    · rw [hok2] at he
      exact absurd he (by simp)
  · intro db key e hfail r
    show selectKeyRows (ValidatorRepository.SaveValidatorKey d db key).2 r = selectKeyRows db r
    have hfail2 : (ValidatorRepository.SaveValidatorKey d db key).1 = some e := hfail
    rcases SaveValidatorKey_cases d db key with ⟨hn, -, -⟩ | ⟨e2, -, hk, -⟩
    · rw [hfail2] at hn
      exact absurd hn (by simp)
    · simp [selectKeyRows, hk]
  · intro db key r
    show storedStatus (ValidatorRepository.SaveValidatorKey d db key).2 r = storedStatus db r
    rcases SaveValidatorKey_cases d db key with ⟨-, -, hq⟩ | ⟨e2, -, -, hq⟩ <;>
      simp [storedStatus, hq]
  · intro db id status m r
    show selectKeyRows (ValidatorRepository.UpdateRequestStatus d db id status m).2 r
      = selectKeyRows db r
    rcases UpdateRequestStatus_cases d db id status m with ⟨-, -, hk, -⟩ | ⟨e, -, -, hk, -⟩ <;>
      simp [selectKeyRows, hk]
  · intro db id status m hok hex
    show storedStatus (ValidatorRepository.UpdateRequestStatus d db id status m).2 id
      = some status
    have hok2 : (ValidatorRepository.UpdateRequestStatus d db id status m).1 = none := hok
    have hex2 : storedStatus db id ≠ none := hex
    rcases UpdateRequestStatus_cases d db id status m with ⟨-, -, -, hq⟩ | ⟨e, he, -, -, -⟩
    · rw [storedStatus, hq]
      apply storedStatus_update
      intro hnone
      apply hex2
      simp [storedStatus, hnone]
    · rw [hok2] at he
      exact absurd he (by simp)
  · intro db id status m e hfail r
    show storedStatus (ValidatorRepository.UpdateRequestStatus d db id status m).2 r
      = storedStatus db r
    have hfail2 : (ValidatorRepository.UpdateRequestStatus d db id status m).1 = some e := hfail
    rcases UpdateRequestStatus_cases d db id status m with ⟨hn, -, -, -⟩ | ⟨e2, -, -, -, hq⟩
    · rw [hfail2] at hn
      exact absurd hn (by simp)
    · simp [storedStatus, hq]

/-- C13 fails as stated: one validator requested, the key is saved, and the
final status write fails in the driver.  The request owns `n = 1` key rows and
its stored status is still `started`, not `successful`. -/
theorem C13_counterexample :
    (selectKeyRows ((databaseService (faultAt 1)).processValidatorCreation testEnv "req-1" 1
        testAddress (databaseWorld startedDatabase)).store "req-1").length = 1
      ∧ storedStatus ((databaseService (faultAt 1)).processValidatorCreation testEnv "req-1" 1
        testAddress (databaseWorld startedDatabase)).store "req-1" = some StatusStarted
      ∧ ¬ ((selectKeyRows ((databaseService (faultAt 1)).processValidatorCreation testEnv "req-1" 1
            testAddress (databaseWorld startedDatabase)).store "req-1").length = 1
          ↔ storedStatus ((databaseService (faultAt 1)).processValidatorCreation testEnv "req-1" 1
            testAddress (databaseWorld startedDatabase)).store "req-1"
              = some StatusSuccessful) := by
  decide

/-- Two validators on the SQLite store with a driver that never fails. -/
theorem C13_rows_match_status_witness :
    selectKeyRows ((databaseService okDriver).processValidatorCreation testEnv "req-1" 2
        testAddress (databaseWorld startedDatabase)).store "req-1"
        = savedKeys (newEvents (databaseWorld startedDatabase)
            ((databaseService okDriver).processValidatorCreation testEnv "req-1" 2 testAddress
              (databaseWorld startedDatabase)))
      ∧ (((selectKeyRows ((databaseService okDriver).processValidatorCreation testEnv "req-1" 2
            testAddress (databaseWorld startedDatabase)).store "req-1").length : Int) = 2
          ↔ storedStatus ((databaseService okDriver).processValidatorCreation testEnv "req-1" 2
              testAddress (databaseWorld startedDatabase)).store "req-1"
              = some StatusSuccessful)
      ∧ (storedStatus ((databaseService okDriver).processValidatorCreation testEnv "req-1" 2
            testAddress (databaseWorld startedDatabase)).store "req-1" = some StatusFailed
          ↔ ∃ ev ∈ newEvents (databaseWorld startedDatabase)
              ((databaseService okDriver).processValidatorCreation testEnv "req-1" 2 testAddress
                (databaseWorld startedDatabase)),
              keyStepFailed ev = true)
      ∧ (storedStatus ((databaseService okDriver).processValidatorCreation testEnv "req-1" 2
            testAddress (databaseWorld startedDatabase)).store "req-1" = some StatusFailed →
          ((selectKeyRows ((databaseService okDriver).processValidatorCreation testEnv "req-1" 2
            testAddress (databaseWorld startedDatabase)).store "req-1").length : Int) < 2) :=
  C13_rows_match_status testEnv (databaseService okDriver) databaseView
    (ValidatorRepository_wellBehaved okDriver) "req-1" 2 testAddress
    (databaseWorld startedDatabase) (by decide) (by decide) (by decide)
    ⟨StatusSuccessful, "", by decide⟩

/-! ### Isolation -/

theorem okSteps_infix (keys : List ValidatorKey) (k : ValidatorKey) (hk : k ∈ keys) :
    ∃ pre post, okSteps keys
      = pre ++ [Event.keygen k.Key none, Event.call (Call.SaveValidatorKey k) none] ++ post := by
  induction keys with
  | nil => simp at hk
  | cons k2 ks ih =>
    rcases List.mem_cons.mp hk with rfl | hk
    · exact ⟨[], okSteps ks, by simp [okSteps]⟩
    · obtain ⟨pre, post, h⟩ := ih hk
      exact ⟨Event.keygen k2.Key none :: Event.call (Call.SaveValidatorKey k2) none :: pre, post,
        by simp [okSteps, h]⟩

/-- On a well-behaved store, the events after the successful iterations leave
the key rows of every request as they are. -/
theorem keyRows_replay_tail (repo : RequestRepo σ) (v : StoreView σ) (hwb : WellBehaved repo v)
    (requestID : String) (tail : List Event) (st : σ) (hc : Consistent repo tail st)
    (hshape : (∃ uerr elapsed, tail = finishEvents requestID uerr elapsed)
      ∨ (∃ e uerr, tail = genFailure requestID e uerr)
      ∨ (∃ key e uerr, tail = saveFailure requestID key e uerr)) (r : String) :
    v.keyRows (replayStore repo tail st) r = v.keyRows st r := by
  rcases hshape with ⟨uerr, elapsed, rfl⟩ | ⟨e, uerr, rfl⟩ | ⟨key, e, uerr, rfl⟩
  · cases uerr <;> simp [finishEvents, replayStore, applyCall, hwb.2.2.2.1]
  · cases uerr <;> simp [genFailure, afterFailedWrite, replayStore, applyCall, hwb.2.2.2.1]
  · have hsave : (repo.SaveValidatorKey st key).1 = some e := by
      cases uerr <;> simp [saveFailure, afterFailedWrite, Consistent, applyCall] at hc <;>
        exact hc.1
    cases uerr <;>
      simp [saveFailure, afterFailedWrite, replayStore, applyCall, hwb.2.2.2.1,
        hwb.2.1 st key e hsave]

/-- On a well-behaved store, a run adds to the key rows of its own request
exactly the keys it saved, in order, and leaves the key rows of every other
request as they were. -/
theorem keyRows_after_run (env : Env) (s : ValidatorService σ) (v : StoreView σ)
    (hwb : WellBehaved s.repo v) (requestID : String) (numValidators : Int)
    (feeRecipient : String) (w : World σ) (r : String) :
    v.keyRows (s.processValidatorCreation env requestID numValidators feeRecipient w).store r
      = v.keyRows w.store r
        ++ (if r = requestID then
              savedKeys (newEvents w
                (s.processValidatorCreation env requestID numValidators feeRecipient w))
            else []) := by
  obtain ⟨keys, tail, hev, hkeys, hstore, hcons, hshape⟩ :=
    processValidatorCreation_shape env s requestID numValidators feeRecipient w
  have hnew := newEvents_append _ _ _ hev
  obtain ⟨hrows, -⟩ := replay_okIterations s.repo v hwb keys tail w.store hcons
  have hcons1 := ((consistent_append s.repo _ _ _).mp hcons).2
  have hshape2 : (∃ uerr elapsed, tail = finishEvents requestID uerr elapsed)
      ∨ (∃ e uerr, tail = genFailure requestID e uerr)
      ∨ (∃ key e uerr, tail = saveFailure requestID key e uerr) := by
    rcases hshape with ⟨-, h⟩ | ⟨-, h⟩ | ⟨-, key, e, uerr, -, -, h⟩
    · exact Or.inl h
    · exact Or.inr (Or.inl h)
    · exact Or.inr (Or.inr ⟨key, e, uerr, h⟩)
  have hsaved : savedKeys (newEvents w
      (s.processValidatorCreation env requestID numValidators feeRecipient w)) = keys := by
    rw [hnew, savedKeys_append, savedKeys_append, savedKeys_prelude, savedKeys_okIterations]
    rcases hshape2 with ⟨uerr, elapsed, rfl⟩ | ⟨e, uerr, rfl⟩ | ⟨key, e, uerr, rfl⟩
    · rw [savedKeys_finishEvents]; simp
    · rw [savedKeys_genFailure]; simp
    · rw [savedKeys_saveFailure]; simp
  rw [hstore, replayStore_append,
    keyRows_replay_tail s.repo v hwb requestID tail _ hcons1 hshape2, hrows, hsaved]
  by_cases hr : r = requestID
  · rw [if_pos hr, hr]
    rw [filter_eq_self_of_all keys requestID fun k hk => (hkeys k hk).1]
  · rw [if_neg hr]
    have hnil : (keys.filter fun k => k.RequestID = r) = [] := by
      rw [List.filter_eq_nil_iff]
      intro k hk
      simp only [decide_eq_true_eq]
      intro h
      exact hr (h.symm.trans (hkeys k hk).1)
    rw [hnil]

/-- C14 fails as stated: two runs on the SQLite store, for `req-1` and then for
`req-2`, with a random source that repeats.  The key string written by the run
of `req-2` is the one `GetKeysByRequestID` returns for `req-1`. -/
theorem C14_counterexample :
    Call.SaveValidatorKey
        ⟨"10111213-1415-4617-9819-1a1b1c1d1e1f", "req-2",
          "000102030405060708090a0b0c0d0e0f101112131415161718191a1b1c1d1e1f", testAddress⟩
        ∈ storeCalls (newEvents
            ((databaseService okDriver).processValidatorCreation repeatingEnv "req-1" 1
              testAddress (databaseWorld startedDatabase))
            ((databaseService okDriver).processValidatorCreation repeatingEnv "req-2" 1
              testAddress
              ((databaseService okDriver).processValidatorCreation repeatingEnv "req-1" 1
                testAddress (databaseWorld startedDatabase))))
      ∧ ((ValidatorRepository okDriver).GetKeysByRequestID
          ((databaseService okDriver).processValidatorCreation repeatingEnv "req-2" 1
            testAddress
            ((databaseService okDriver).processValidatorCreation repeatingEnv "req-1" 1
              testAddress (databaseWorld startedDatabase))).store "req-1").1
        = Except.ok ["000102030405060708090a0b0c0d0e0f101112131415161718191a1b1c1d1e1f"] :=
  ⟨by decide, rfl⟩

/-- C14, amended: in every run of `processValidatorCreation`, successful or
failing, every key passed to `SaveValidatorKey` carries the run's request id
and fee recipient, and its `Key` is the output of the key generation that
immediately precedes the call.  Consequently a run changes the key rows of its
own request only: on a well-behaved store the rows of the run's id are those it
had followed by the keys the run saved, and the rows of every other id are as
they were.  On the SQLite store, `GetKeysByRequestID` after the run returns,
for any other request id, exactly the keys of the rows that id had before the
run, and for the run's own id the keys it had followed by the keys the run
saved. -/
theorem C14_keys_tagged_and_isolated (env : Env) (s : ValidatorService σ)
    (requestID : String) (numValidators : Int) (feeRecipient : String) (w : World σ) :
    (∀ key err, Event.call (Call.SaveValidatorKey key) err
          ∈ newEvents w (s.processValidatorCreation env requestID numValidators feeRecipient w) →
        key.RequestID = requestID ∧ key.FeeRecipient = feeRecipient
          ∧ ∃ pre post, keySteps (newEvents w
                (s.processValidatorCreation env requestID numValidators feeRecipient w))
              = pre ++ [Event.keygen key.Key none, Event.call (Call.SaveValidatorKey key) err]
                  ++ post)
      ∧ (∀ v : StoreView σ, WellBehaved s.repo v → ∀ r,
        v.keyRows (s.processValidatorCreation env requestID numValidators feeRecipient w).store r
          = v.keyRows w.store r
            ++ (if r = requestID then
                  savedKeys (newEvents w
                    (s.processValidatorCreation env requestID numValidators feeRecipient w))
                else []))
      ∧ (∀ (d : Driver) (dw : World Database) (other : String), other ≠ requestID →
        d.fault ((databaseService d).processValidatorCreation env requestID numValidators
          feeRecipient dw).store.ops = none →
        ((ValidatorRepository d).GetKeysByRequestID
            ((databaseService d).processValidatorCreation env requestID numValidators
              feeRecipient dw).store other).1
          = Except.ok ((selectKeyRows dw.store other).map fun k => k.Key))
      ∧ (∀ (d : Driver) (dw : World Database),
        d.fault ((databaseService d).processValidatorCreation env requestID numValidators
          feeRecipient dw).store.ops = none →
        ((ValidatorRepository d).GetKeysByRequestID
            ((databaseService d).processValidatorCreation env requestID numValidators
              feeRecipient dw).store requestID).1
          = Except.ok ((selectKeyRows dw.store requestID
              ++ savedKeys (newEvents dw
                  ((databaseService d).processValidatorCreation env requestID numValidators
                    feeRecipient dw))).map fun k => k.Key)) := by
  obtain ⟨keys, tail, hev, hkeys, hstore, hcons, hshape⟩ :=
    processValidatorCreation_shape env s requestID numValidators feeRecipient w
  have hnew := newEvents_append _ _ _ hev
  have hpre : keySteps [Event.log "INFO" "Starting validator creation process",
      Event.tasksTotalInc "started"] = [] := by simp [keySteps]
  have htag : ∀ key err, Event.call (Call.SaveValidatorKey key) err
        ∈ newEvents w (s.processValidatorCreation env requestID numValidators feeRecipient w) →
      key.RequestID = requestID ∧ key.FeeRecipient = feeRecipient
        ∧ ∃ pre post, keySteps (newEvents w
              (s.processValidatorCreation env requestID numValidators feeRecipient w))
            = pre ++ [Event.keygen key.Key none, Event.call (Call.SaveValidatorKey key) err]
                ++ post := by
    intro key err hmem
    rw [hnew] at hmem ⊢
    rw [keySteps_append, keySteps_append, hpre, keySteps_okIterations, List.nil_append]
    rcases List.mem_append.mp hmem with h | h
    · rcases List.mem_append.mp h with h | h
      · simp at h
      · obtain ⟨k, hk, hin⟩ := mem_okIterations keys _ h
        have hke : key = k ∧ err = none := by simpa [okIteration] using hin
        obtain ⟨rfl, rfl⟩ := hke
        obtain ⟨pre, post, hp⟩ := okSteps_infix keys key hk
        exact ⟨(hkeys key hk).1, (hkeys key hk).2, pre, post ++ keySteps tail, by simp [hp]⟩
    · rcases hshape with ⟨-, uerr, elapsed, rfl⟩ | ⟨-, e, uerr, rfl⟩ |
        ⟨-, key2, e, uerr, hr, hf, rfl⟩
      · cases uerr <;> simp [finishEvents] at h
      · cases uerr <;> simp [genFailure, afterFailedWrite] at h
      · have hke : key = key2 ∧ err = some e := by
          cases uerr <;> simpa [saveFailure, afterFailedWrite] using h
        obtain ⟨rfl, rfl⟩ := hke
        refine ⟨hr, hf, okSteps keys, [Event.call (Call.UpdateRequestStatus requestID
          StatusFailed "Error saving validator keys") uerr], ?_⟩
        rw [keySteps_saveFailure]
        simp
  have hquery : ∀ (d : Driver) (dw : World Database) (r : String),
      d.fault ((databaseService d).processValidatorCreation env requestID numValidators
        feeRecipient dw).store.ops = none →
      ((ValidatorRepository d).GetKeysByRequestID
          ((databaseService d).processValidatorCreation env requestID numValidators
            feeRecipient dw).store r).1
        = Except.ok ((selectKeyRows dw.store r
            ++ (if r = requestID then
                  savedKeys (newEvents dw
                    ((databaseService d).processValidatorCreation env requestID numValidators
                      feeRecipient dw))
                else [])).map fun k => k.Key) := by
    intro d dw r hfault
    have hrows := keyRows_after_run env (databaseService d) databaseView
      (ValidatorRepository_wellBehaved d) requestID numValidators feeRecipient dw r
    have hrows2 : selectKeyRows ((databaseService d).processValidatorCreation env requestID
        numValidators feeRecipient dw).store r
        = selectKeyRows dw.store r
          ++ (if r = requestID then
                savedKeys (newEvents dw
                  ((databaseService d).processValidatorCreation env requestID numValidators
                    feeRecipient dw))
              else []) := hrows
    simp only [ValidatorRepository, ValidatorRepository.GetKeysByRequestID, hfault, hrows2]
  refine ⟨htag, fun v hwb r => keyRows_after_run env s v hwb requestID numValidators
    feeRecipient w r, ?_, ?_⟩
  · intro d dw other hne hfault
    have h := hquery d dw other hfault
    rw [if_neg hne, List.append_nil] at h
    exact h
  · intro d dw hfault
    have h := hquery d dw requestID hfault
    rw [if_pos rfl] at h
    exact h

/-- Two runs on the SQLite store, for `req-1` and then for `req-2`: after the
second run `GetKeysByRequestID` returns for `req-1` the keys `req-1` had before
it. -/
theorem C14_keys_tagged_and_isolated_witness :
    ((ValidatorRepository okDriver).GetKeysByRequestID
        ((databaseService okDriver).processValidatorCreation testEnv "req-2" 2 testAddress
          ((databaseService okDriver).processValidatorCreation testEnv "req-1" 1 testAddress
            (databaseWorld startedDatabase))).store "req-1").1
      = Except.ok ((selectKeyRows
          ((databaseService okDriver).processValidatorCreation testEnv "req-1" 1 testAddress
            (databaseWorld startedDatabase)).store "req-1").map fun k => k.Key) :=
  (C14_keys_tagged_and_isolated testEnv (databaseService okDriver) "req-2" 2 testAddress
    ((databaseService okDriver).processValidatorCreation testEnv "req-1" 1 testAddress
      (databaseWorld startedDatabase))).2.2.1 okDriver
    ((databaseService okDriver).processValidatorCreation testEnv "req-1" 1 testAddress
      (databaseWorld startedDatabase)) "req-1" (by decide) (by decide)

/-! ### `UpdateRequestStatus` of the store -/

/-- C15 fails as stated: on a database that holds no request `missing`,
`UpdateRequestStatus("missing", failed, "boom")` returns no error. -/
theorem C15_counterexample :
    storedStatus startedDatabase "missing" = none
      ∧ ((ValidatorRepository okDriver).UpdateRequestStatus startedDatabase "missing"
          StatusFailed "boom").1 = none := by
  decide

/-- C15, amended: the store's `UpdateRequestStatus(id, status, errorMessage)`
returns an error only when the driver fails on the statement, and then changes
no row.  Otherwise it returns no error, also when no request with that id
exists, in which case every row is left as it was; it overwrites the status,
error message and updated-at of exactly the requests with that id, keeps their
other columns, and changes no other row of either table. -/
theorem C15_update_overwrites_matching_rows (d : Driver) (db : Database) (id : String)
    (status : Status) (errorMessage : String) :
    (∀ e, d.fault db.ops = some e →
        ((ValidatorRepository d).UpdateRequestStatus db id status errorMessage).1 = some e
          ∧ ((ValidatorRepository d).UpdateRequestStatus db id status
              errorMessage).2.validator_requests = db.validator_requests
          ∧ ((ValidatorRepository d).UpdateRequestStatus db id status
              errorMessage).2.validator_keys = db.validator_keys)
      ∧ (d.fault db.ops = none →
        ((ValidatorRepository d).UpdateRequestStatus db id status errorMessage).1 = none
          ∧ ((ValidatorRepository d).UpdateRequestStatus db id status
              errorMessage).2.validator_requests
            = db.validator_requests.map (fun r =>
                if r.ID = id then
                  { r with Status := status, UpdatedAt := d.now db.clock
                           ErrorMessage := errorMessage }
                else r)
          ∧ ((ValidatorRepository d).UpdateRequestStatus db id status
              errorMessage).2.validator_keys = db.validator_keys
          ∧ (storedStatus db id = none →
              ((ValidatorRepository d).UpdateRequestStatus db id status
                errorMessage).2.validator_requests = db.validator_requests)) := by
  have hcases := UpdateRequestStatus_cases d db id status errorMessage
  constructor
  · intro e hf
    rcases hcases with ⟨-, hf2, -, -⟩ | ⟨e2, hres, hf2, hk, hq⟩
    · rw [hf] at hf2; exact absurd hf2 (by simp)
    · rw [hf] at hf2
      cases hf2
      exact ⟨hres, hq, hk⟩
  · intro hf
    rcases hcases with ⟨hres, -, hk, hq⟩ | ⟨e2, -, hf2, -, -⟩
    · refine ⟨hres, hq, hk, ?_⟩
      intro hnone
      show (ValidatorRepository.UpdateRequestStatus d db id status errorMessage).2.validator_requests
        = db.validator_requests
      rw [hq]
      have hall : ∀ r ∈ db.validator_requests, r.ID ≠ id := by
        intro r hr heq
        have hfind : (db.validator_requests.find? fun r => r.ID = id) = none := by
          simpa [storedStatus] using hnone
        have := List.find?_eq_none.mp hfind r hr
        simp [heq] at this
      calc db.validator_requests.map (fun r =>
              if r.ID = id then
                { r with Status := status, UpdatedAt := d.now db.clock
                         ErrorMessage := errorMessage }
              else r)
          = db.validator_requests.map (fun r => r) := by
            apply List.map_congr_left
            intro r hr
            simp [hall r hr]
        _ = db.validator_requests := List.map_id' _
    · rw [hf] at hf2; exact absurd hf2 (by simp)

/-- The status write of a failed run on a database with two requests: only the
row of `req-1` changes. -/
theorem C15_update_overwrites_matching_rows_witness :
    ((ValidatorRepository okDriver).UpdateRequestStatus
        { startedDatabase with
          validator_requests := [testRequest StatusStarted "",
            { testRequest StatusStarted "" with ID := "req-2" }] }
        "req-1" StatusFailed "Error saving validator keys").2.validator_requests
      = [{ testRequest StatusFailed "Error saving validator keys" with UpdatedAt := 2000 },
          { testRequest StatusStarted "" with ID := "req-2" }] :=
  ((C15_update_overwrites_matching_rows okDriver
    { startedDatabase with
      validator_requests := [testRequest StatusStarted "",
        { testRequest StatusStarted "" with ID := "req-2" }] }
    "req-1" StatusFailed "Error saving validator keys").2 rfl).2.1

/-! ### Task counters -/

/-- What the counters of a run record: `started` once, then `failed` exactly
when the status write of the run returned an error, `successful` when the status
`successful` was written without error, and nothing when the status `failed` was
written without error.  The duration is observed only on the path that writes
`successful`. -/
theorem taskCounts_follow_status_write (env : Env) (s : ValidatorService σ)
    (requestID : String) (numValidators : Int) (feeRecipient : String) (w : World σ) :
    ∃ status m uerr,
      Event.call (Call.UpdateRequestStatus requestID status m) uerr
          ∈ newEvents w (s.processValidatorCreation env requestID numValidators feeRecipient w)
        ∧ taskCounts (newEvents w
            (s.processValidatorCreation env requestID numValidators feeRecipient w))
          = "started" :: (match uerr with
              | some _ => ["failed"]
              | none => if status = StatusSuccessful then ["successful"] else [])
        ∧ (durations (newEvents w
            (s.processValidatorCreation env requestID numValidators feeRecipient w))).length
          = if status = StatusSuccessful then 1 else 0 := by
  obtain ⟨keys, tail, hnew, -, hshape⟩ :=
    processValidatorCreation_newEvents env s requestID numValidators feeRecipient w
  rw [hnew]
  have hpre : taskCounts [Event.log "INFO" "Starting validator creation process",
      Event.tasksTotalInc "started"] = ["started"] := by simp [taskCounts]
  have hpre2 : durations [Event.log "INFO" "Starting validator creation process",
      Event.tasksTotalInc "started"] = [] := by simp [durations]
  rcases hshape with ⟨-, uerr, elapsed, rfl⟩ | ⟨-, e, uerr, rfl⟩ | ⟨-, key, e, uerr, -, -, rfl⟩
  · refine ⟨StatusSuccessful, "", uerr, ?_, ?_, ?_⟩
    · cases uerr <;> simp [finishEvents]
    · rw [taskCounts_append, taskCounts_append, hpre, taskCounts_okIterations]
      cases uerr <;> simp [taskCounts, finishEvents]
    · rw [durations_append, durations_append, hpre2, durations_okIterations]
      cases uerr <;> simp [durations, finishEvents]
  · refine ⟨StatusFailed, "Error generating validator keys", uerr, ?_, ?_, ?_⟩
    · cases uerr <;> simp [genFailure, afterFailedWrite]
    · rw [taskCounts_append, taskCounts_append, hpre, taskCounts_okIterations]
      cases uerr <;> simp [taskCounts, genFailure, afterFailedWrite, status_failed_ne_successful]
    · rw [durations_append, durations_append, hpre2, durations_okIterations]
      cases uerr <;> simp [durations, genFailure, afterFailedWrite, status_failed_ne_successful]
  · refine ⟨StatusFailed, "Error saving validator keys", uerr, ?_, ?_, ?_⟩
    · cases uerr <;> simp [saveFailure, afterFailedWrite]
    · rw [taskCounts_append, taskCounts_append, hpre, taskCounts_okIterations]
      cases uerr <;> simp [taskCounts, saveFailure, afterFailedWrite, status_failed_ne_successful]
    · rw [durations_append, durations_append, hpre2, durations_okIterations]
      cases uerr <;> simp [durations, saveFailure, afterFailedWrite, status_failed_ne_successful]

/-- C18, the code at the failing input: the run of the test "error saving
validator key" (two validators, the first `SaveValidatorKey` fails, the status
write succeeds).  The run ended in a failure and wrote the status `failed`, yet
the only counter incremented is `started`: neither `failed` nor `successful`
follows, and no duration is observed. -/
theorem C18_failed_run_not_counted :
    (∃ ev ∈ newEvents emptyWorld
        ((⟨mockRepo (saveFailsAt 0)⟩ : ValidatorService Nat).processValidatorCreation testEnv
          "req-1" 2 testAddress emptyWorld), keyStepFailed ev = true)
      ∧ Event.call (Call.UpdateRequestStatus "req-1" StatusFailed "Error saving validator keys")
          none ∈ newEvents emptyWorld
            ((⟨mockRepo (saveFailsAt 0)⟩ : ValidatorService Nat).processValidatorCreation testEnv
              "req-1" 2 testAddress emptyWorld)
      ∧ taskCounts (newEvents emptyWorld
          ((⟨mockRepo (saveFailsAt 0)⟩ : ValidatorService Nat).processValidatorCreation testEnv
            "req-1" 2 testAddress emptyWorld)) = ["started"]
      ∧ durations (newEvents emptyWorld
          ((⟨mockRepo (saveFailsAt 0)⟩ : ValidatorService Nat).processValidatorCreation testEnv
            "req-1" 2 testAddress emptyWorld)) = [] := by
  decide

/-! ### Handlers -/

theorem httpError_newRecorder (msg : String) (code : Nat) :
    (httpError NewRecorder msg code).Code = code
      ∧ (httpError NewRecorder msg code).Body = [BodyChunk.text (msg ++ "\n")] := by
  simp [httpError, NewRecorder, ResponseRecorder.headerDel, ResponseRecorder.headerSet,
    ResponseRecorder.WriteHeader, ResponseRecorder.Write]

/-- C16: the `CreateValidator` handler, on a fresh recorder.  If the body does
not decode it responds 400 and the service is not called.  If the service
returns an error it responds 400 with that error's text.  Otherwise it responds
202 with the service's response as the JSON body.  Hence the status is 202 if
and only if the body decodes and the service returns no error. -/
theorem C16_create_handler_responses
    (decode : String → Except Error ValidatorRequestInput) (h : ValidatorHandler τ)
    (r : Request) (st : HandlerState τ) :
    (∀ e, decode r.Body = Except.error e →
        (h.CreateValidator decode NewRecorder r st).1.Code = StatusBadRequest
          ∧ (h.CreateValidator decode NewRecorder r st).1.Body
              = [BodyChunk.text "Invalid request body\n"]
          ∧ (h.CreateValidator decode NewRecorder r st).2.calls = st.calls)
      ∧ (∀ input err, decode r.Body = Except.ok input →
          (h.service.CreateValidatorRequest input st.service).1.2 = some err →
        (h.CreateValidator decode NewRecorder r st).1.Code = StatusBadRequest
          ∧ (h.CreateValidator decode NewRecorder r st).1.Body
              = [BodyChunk.text (err.msg ++ "\n")]
          ∧ (h.CreateValidator decode NewRecorder r st).2.calls
              = st.calls ++ [ServiceCall.CreateValidatorRequest input])
      ∧ (∀ input, decode r.Body = Except.ok input →
          (h.service.CreateValidatorRequest input st.service).1.2 = none →
        (h.CreateValidator decode NewRecorder r st).1.Code = StatusAccepted
          ∧ (h.CreateValidator decode NewRecorder r st).1.Body
              = [BodyChunk.json (marshalRequestResponse
                  (h.service.CreateValidatorRequest input st.service).1.1)]
          ∧ (h.CreateValidator decode NewRecorder r st).1.HeaderMap
              = [("Content-Type", "application/json")]
          ∧ (h.CreateValidator decode NewRecorder r st).2.calls
              = st.calls ++ [ServiceCall.CreateValidatorRequest input])
      ∧ ((h.CreateValidator decode NewRecorder r st).1.Code = StatusAccepted
          ↔ ∃ input, decode r.Body = Except.ok input
              ∧ (h.service.CreateValidatorRequest input st.service).1.2 = none) := by
  have h1 : ∀ e, decode r.Body = Except.error e →
      h.CreateValidator decode NewRecorder r st
        = (httpError NewRecorder "Invalid request body" StatusBadRequest, st) := by
    intro e he
    simp [ValidatorHandler.CreateValidator, he]
  have h2 : ∀ input err, decode r.Body = Except.ok input →
      (h.service.CreateValidatorRequest input st.service).1.2 = some err →
      h.CreateValidator decode NewRecorder r st
        = (httpError NewRecorder err.msg StatusBadRequest,
            { service := (h.service.CreateValidatorRequest input st.service).2
              calls := st.calls ++ [ServiceCall.CreateValidatorRequest input] }) := by
    intro input err hd hs
    simp [ValidatorHandler.CreateValidator, hd, hs]
  have h3 : ∀ input, decode r.Body = Except.ok input →
      (h.service.CreateValidatorRequest input st.service).1.2 = none →
      h.CreateValidator decode NewRecorder r st
        = ({ Code := StatusAccepted, HeaderMap := [("Content-Type", "application/json")]
             Body := [BodyChunk.json (marshalRequestResponse
               (h.service.CreateValidatorRequest input st.service).1.1)]
             wroteHeader := true },
            { service := (h.service.CreateValidatorRequest input st.service).2
              calls := st.calls ++ [ServiceCall.CreateValidatorRequest input] }) := by
    intro input hd hs
    simp [ValidatorHandler.CreateValidator, hd, hs, encodeTo, NewRecorder,
      ResponseRecorder.headerSet, ResponseRecorder.WriteHeader, ResponseRecorder.Write]
  refine ⟨?_, ?_, ?_, ?_⟩
  · intro e he
    rw [h1 e he]
    exact ⟨(httpError_newRecorder _ _).1, (httpError_newRecorder _ _).2, rfl⟩
  · intro input err hd hs
    rw [h2 input err hd hs]
    exact ⟨(httpError_newRecorder _ _).1, (httpError_newRecorder _ _).2, rfl⟩
  · intro input hd hs
    rw [h3 input hd hs]
    exact ⟨rfl, rfl, rfl, rfl⟩
  · constructor
    · intro hcode
      cases hd : decode r.Body with
      | error e =>
        rw [h1 e hd, (httpError_newRecorder _ _).1] at hcode
        exact absurd hcode (by decide)
      | ok input =>
        cases hs : (h.service.CreateValidatorRequest input st.service).1.2 with
        | some err =>
          rw [h2 input err hd hs, (httpError_newRecorder _ _).1] at hcode
          exact absurd hcode (by decide)
        | none => exact ⟨input, rfl, hs⟩
    · rintro ⟨input, hd, hs⟩
      rw [h3 input hd hs]

/-- The handler over the real service and a mock store, as in the tests: a
valid body is accepted with the request id and the message. -/
theorem C16_create_handler_responses_witness :
    ((⟨okService.asValidator testEnv⟩ : ValidatorHandler (World Nat)).CreateValidator testDecode
        NewRecorder ⟨"valid-json", []⟩ ⟨emptyWorld, []⟩).1.Code = StatusAccepted
      ∧ ((⟨okService.asValidator testEnv⟩ : ValidatorHandler (World Nat)).CreateValidator
          testDecode NewRecorder ⟨"valid-json", []⟩ ⟨emptyWorld, []⟩).1.Body
        = [BodyChunk.json (JSONDoc.object
            [("request_id", JSONValue.string "00010203-0405-4607-8809-0a0b0c0d0e0f"),
              ("message", JSONValue.string "Validator creation in progress")])] :=
  ⟨((C16_create_handler_responses testDecode ⟨okService.asValidator testEnv⟩ ⟨"valid-json", []⟩
      ⟨emptyWorld, []⟩).2.2.1 ⟨3, testAddress⟩ rfl (by decide)).1,
    ((C16_create_handler_responses testDecode ⟨okService.asValidator testEnv⟩ ⟨"valid-json", []⟩
      ⟨emptyWorld, []⟩).2.2.1 ⟨3, testAddress⟩ rfl (by decide)).2.1⟩

theorem unmarshal_marshal_status (v : ValidatorStatusResponse) :
    unmarshalStatusResponse (marshalStatusResponse (some v)) = Except.ok v := by
  by_cases hk : v.Keys = [] <;> by_cases hm : v.Message = "" <;>
    simp [unmarshalStatusResponse, marshalStatusResponse, unmarshalMembers, hk, hm] <;>
    cases v <;> simp_all

/-- C17: the `GetValidatorStatus` handler, on a fresh recorder, calls the
service once, with the `request_id` path variable as it is.  If the service
returns an error, whichever it is, it responds 404 with the error's text.
Otherwise it responds 200 with the service's status view as the JSON body, and
decoding the JSON of a status view gives the view back, status and keys
included. -/
theorem C17_status_handler_responses (h : ValidatorHandler τ) (r : Request)
    (st : HandlerState τ) :
    (h.GetValidatorStatus NewRecorder r st).2.calls
        = st.calls ++ [ServiceCall.GetRequestStatus (r.var "request_id")]
      ∧ (∀ err, (h.service.GetRequestStatus (r.var "request_id") st.service).1.2 = some err →
        (h.GetValidatorStatus NewRecorder r st).1.Code = StatusNotFound
          ∧ (h.GetValidatorStatus NewRecorder r st).1.Body = [BodyChunk.text (err.msg ++ "\n")])
      ∧ ((h.service.GetRequestStatus (r.var "request_id") st.service).1.2 = none →
        (h.GetValidatorStatus NewRecorder r st).1.Code = StatusOK
          ∧ (h.GetValidatorStatus NewRecorder r st).1.Body
              = [BodyChunk.json (marshalStatusResponse
                  (h.service.GetRequestStatus (r.var "request_id") st.service).1.1)]
          ∧ (h.GetValidatorStatus NewRecorder r st).1.HeaderMap
              = [("Content-Type", "application/json")])
      ∧ (∀ v : ValidatorStatusResponse,
        unmarshalStatusResponse (marshalStatusResponse (some v)) = Except.ok v) := by
  refine ⟨?_, ?_, ?_, unmarshal_marshal_status⟩
  · cases hs : (h.service.GetRequestStatus (r.var "request_id") st.service).1.2 <;>
      simp [ValidatorHandler.GetValidatorStatus, hs, encodeTo]
  · intro err hs
    have hout : h.GetValidatorStatus NewRecorder r st
        = (httpError NewRecorder err.msg StatusNotFound,
            { service := (h.service.GetRequestStatus (r.var "request_id") st.service).2
              calls := st.calls ++ [ServiceCall.GetRequestStatus (r.var "request_id")] }) := by
      simp [ValidatorHandler.GetValidatorStatus, hs]
    rw [hout]
    exact httpError_newRecorder _ _
  · intro hs
    simp [ValidatorHandler.GetValidatorStatus, hs, encodeTo, NewRecorder,
      ResponseRecorder.headerSet, ResponseRecorder.WriteHeader, ResponseRecorder.Write, StatusOK]

/-- The handler over the real service and a store holding a successful request
with two keys, as in the tests. -/
theorem C17_status_handler_responses_witness :
    ((⟨(readService StatusSuccessful "" ["key1", "key2"]).asValidator testEnv⟩ :
        ValidatorHandler (World Nat)).GetValidatorStatus NewRecorder
        ⟨"", [("request_id", "test-uuid")]⟩ ⟨emptyWorld, []⟩).1.Code = StatusOK
      ∧ ((⟨(readService StatusSuccessful "" ["key1", "key2"]).asValidator testEnv⟩ :
        ValidatorHandler (World Nat)).GetValidatorStatus NewRecorder
        ⟨"", [("request_id", "test-uuid")]⟩ ⟨emptyWorld, []⟩).1.Body
        = [BodyChunk.json (JSONDoc.object
            [("status", JSONValue.string "successful"),
              ("keys", JSONValue.strings ["key1", "key2"])])] :=
  ⟨((C17_status_handler_responses
      ⟨(readService StatusSuccessful "" ["key1", "key2"]).asValidator testEnv⟩
      ⟨"", [("request_id", "test-uuid")]⟩ ⟨emptyWorld, []⟩).2.2.1 (by decide)).1,
    ((C17_status_handler_responses
      ⟨(readService StatusSuccessful "" ["key1", "key2"]).asValidator testEnv⟩
      ⟨"", [("request_id", "test-uuid")]⟩ ⟨emptyWorld, []⟩).2.2.1 (by decide)).2.1⟩

end Stakeway
